import Mathlib

/-!
Git-style patch headers (package `diff`).

A shallow embedding of `diff.go`: the `Object` and `Writer` records, the
`WriteHeader` and `WriteDiff` methods, and the pieces of the Go standard
library they call (`fmt.Fprintf` with the verbs `%s`, `%o`, `%x`, and
`filepath.Join`).  The line differ of package `dmp`, whose source is not at
hand, is modelled from its specification and its test.

Go strings are modelled as `String`; the separator and dot bytes that
`filepath.Clean` inspects are ASCII, so working on characters and working
on bytes agree.
-/

set_option linter.dupNamespace false
set_option maxRecDepth 20000

namespace Diff

/-! ## Errors, readers and the output sink -/

/-- Go `error` values that can reach a caller of this package: the package
variable `ErrEmptyComparsion` (spelt as in the source) and any other error
value, identified by its message. -/
inductive GoError where
  | ErrEmptyComparsion
  | other (msg : String)
deriving DecidableEq

/-- An `io.Reader` interface value: `none` is the nil interface, `some s` a
reader whose remaining content is `s`. -/
abbrev IoReader := Option String

/-- An `io.Writer` interface value (taken to be non-nil).  `writes` is the
list of payloads its `Write` method has been called with, oldest first;
`respond` is the behaviour of the sink: given the payloads seen so far and
the next payload, the `(n, err)` pair that `Write` returns. -/
structure IoWriter where
  writes : List String
  respond : List String → String → Nat × Option GoError

/-- The method `Write(p) (n int, err error)` of a sink. -/
def IoWriter.Write (s : IoWriter) (p : String) : IoWriter × Nat × Option GoError :=
  ({ s with writes := s.writes ++ [p] }, s.respond s.writes p)

/-- All bytes handed to the sink so far. -/
def IoWriter.contents (s : IoWriter) : String :=
  String.join s.writes

/-- A sink that accepts every write in full, like `bytes.Buffer`. -/
def bufferSink (ws : List String) : IoWriter :=
  { writes := ws, respond := fun _ p => (p.utf8ByteSize, none) }

/-- A sink whose every write fails with the error `e`, accepting nothing. -/
def brokenSink (e : GoError) : IoWriter :=
  { writes := [], respond := fun _ _ => (0, some e) }

/-! ## Data model -/

/-- The field `ID [20]byte`: twenty bytes. -/
structure ObjectID where
  bytes : List (Fin 256)
  size : bytes.length = 20
deriving DecidableEq

/-- The zero value of `[20]byte`. -/
def ObjectID.zero : ObjectID := ⟨List.replicate 20 0, by decide⟩

/-- The struct `Object`: the embedded `io.Reader`, `ID`, `Path`, `Mode`. -/
structure Object where
  Reader : IoReader
  ID : ObjectID
  Path : String
  Mode : Int
deriving DecidableEq

/-- The package variable `var EmptyObject Object`: the zero value. -/
def EmptyObject : Object :=
  { Reader := none, ID := ObjectID.zero, Path := "", Mode := 0 }

/-- The interface `Differ` (taken to be non-nil): `Diff(out, a, b)` may
write to `out`, consume `a` and `b`, and returns an error or nil. -/
structure Differ where
  Diff : IoWriter → IoReader → IoReader → IoWriter × IoReader × IoReader × Option GoError

/-- The struct `Writer`: the embedded `io.Writer` and `Differ`, and the two
path prefixes. -/
structure Writer where
  Writer : IoWriter
  Differ : Differ
  SrcPrefix : String
  DstPrefix : String

/-! ## Standard-library formatting -/

/-- The digit table of package `fmt`. -/
def ldigits : List Char := "0123456789abcdefx".toList

/-- The verb `%o` on an `int`: sign, then the base-8 digits of the
magnitude, at least one digit and no leading zero. -/
def fmtOctal (v : Int) : String :=
  (if v < 0 then "-" else "") ++ String.mk (Nat.toDigits 8 v.natAbs)

/-- The verb `%x` on one byte of a byte array: two lowercase hex digits,
`digits[c>>4]` and `digits[c&0xF]`. -/
def fmtHexByte (c : Fin 256) : List Char :=
  [ldigits.getD (c.val / 16) '0', ldigits.getD (c.val % 16) '0']

/-- The verb `%x` on a `[20]byte`: the hex encoding of the bytes in order. -/
def fmtHex (id : ObjectID) : String :=
  String.mk (id.bytes.flatMap fmtHexByte)

/-- The function `fmt.Fprintf(w, format, args...)`, given the formatted text:
one `Write` call on the sink with the whole text, whose `(n, err)` result it
returns. -/
def Fprintf (w : IoWriter) (text : String) : IoWriter × Nat × Option GoError :=
  w.Write text

/-! ## `filepath.Join` (Unix) -/

/-- The function `os.IsPathSeparator` on Unix. -/
def IsPathSeparator (c : Char) : Bool := c == '/'

/-- The backtracking loop of `filepath.Clean`:
`for out.w > dotdot && !os.IsPathSeparator(out.index(out.w)) { out.w-- }`,
returning the final `out.w`. -/
def backtrack (buf : List Char) (dotdot : Nat) : Nat → Nat
  | 0 => 0
  | w + 1 =>
    if dotdot < w + 1 && !IsPathSeparator (buf.getD (w + 1) '/') then backtrack buf dotdot w
    else w + 1

/-- The main loop `for r < n { switch ... }` of `filepath.Clean`.  `r` is the
index of the next byte of `path` to read, `out` the bytes written so far
(the first `out.w` bytes of the buffer), `dotdot` the index in `out` where
`..` must stop.  Every iteration advances `r`, so `path.length + 1` units of
the first argument cover the whole loop. -/
def cleanLoop (path : List Char) (rooted : Bool) :
    Nat → Nat → List Char → Nat → List Char
  | 0, _, out, _ => out
  | fuel + 1, r, out, dotdot =>
    let n := path.length
    if r < n then
      if IsPathSeparator (path.getD r '/') then
        -- empty path element
        cleanLoop path rooted fuel (r + 1) out dotdot
      else if path.getD r '/' == '.' &&
          (r + 1 == n || IsPathSeparator (path.getD (r + 1) '/')) then
        -- . element
        cleanLoop path rooted fuel (r + 1) out dotdot
      else if path.getD r '/' == '.' && path.getD (r + 1) '/' == '.' &&
          (r + 2 == n || IsPathSeparator (path.getD (r + 2) '/')) then
        -- .. element: remove to last separator
        if dotdot < out.length then
          -- can backtrack
          cleanLoop path rooted fuel (r + 2)
            (out.take (backtrack out dotdot (out.length - 1))) dotdot
        else if !rooted then
          -- cannot backtrack, but not rooted, so append .. element
          let out1 := (if 0 < out.length then out ++ ['/'] else out) ++ ['.', '.']
          cleanLoop path rooted fuel (r + 2) out1 out1.length
        else
          cleanLoop path rooted fuel (r + 2) out dotdot
      else
        -- real path element: add slash if needed, then copy the element
        let out1 :=
          if (rooted && out.length != 1) || (!rooted && out.length != 0) then out ++ ['/']
          else out
        let element := (path.drop r).takeWhile (fun c => !IsPathSeparator c)
        cleanLoop path rooted fuel (r + element.length) (out1 ++ element) dotdot
    else out

/-- The function `filepath.Clean` on Unix (no volume name, `FromSlash` is the
identity). -/
def Clean (path : String) : String :=
  if path = "" then "."
  else
    let p := path.toList
    let rooted := IsPathSeparator (p.getD 0 '.')
    let out := cleanLoop p rooted (p.length + 1) (if rooted then 1 else 0)
      (if rooted then ['/'] else []) (if rooted then 1 else 0)
    -- Turn empty string into "."
    String.mk (if out.length = 0 then ['.'] else out)

/-- The call `filepath.Join(a, b)` on Unix: empty elements are ignored, the
rest are joined with the separator and cleaned; if every element is empty
the result is the empty string. -/
def filepath.Join (a b : String) : String :=
  if a ≠ "" then Clean (a ++ "/" ++ b)
  else if b ≠ "" then Clean b
  else ""

/-! ## The methods of `Writer` -/

/-- The method `(*Writer).WriteHeader(src, dst Object) error`: the writer
after the call and the returned error (`none` is nil).  The results of the
`Fprintf` calls are discarded, as in the source. -/
def Writer.WriteHeader (w : Diff.Writer) (src dst : Object) :
    Diff.Writer × Option GoError :=
  if src = EmptyObject ∧ dst = EmptyObject then
    (w, some GoError.ErrEmptyComparsion)
  else
    let srcPath := ""
    let dstPath := ""
    let (srcPath, dstPath) :=
      if src ≠ EmptyObject then
        (filepath.Join w.SrcPrefix src.Path, filepath.Join w.SrcPrefix src.Path)
      else (srcPath, dstPath)
    let (srcPath, dstPath) :=
      if dst ≠ EmptyObject then
        (if srcPath = "" then filepath.Join w.DstPrefix dst.Path else srcPath,
          filepath.Join w.DstPrefix dst.Path)
      else (srcPath, dstPath)
    let out := (Fprintf w.Writer ("diff --git " ++ srcPath ++ " " ++ dstPath ++ "\n")).1
    if src = EmptyObject then
      let out := (Fprintf out ("new file mode " ++ fmtOctal dst.Mode ++ "\n")).1
      let out := (Fprintf out ("index " ++ fmtHex src.ID ++ ".." ++ fmtHex dst.ID ++ "\n")).1
      let out := (Fprintf out "--- /dev/null\n").1
      let out := (Fprintf out ("+++ " ++ dstPath ++ "\n")).1
      ({ w with Writer := out }, none)
    else if dst = EmptyObject then
      let out := (Fprintf out ("deleted file mode " ++ fmtOctal src.Mode ++ "\n")).1
      let out := (Fprintf out ("index " ++ fmtHex src.ID ++ ".." ++ fmtHex dst.ID ++ "\n")).1
      let out := (Fprintf out ("--- " ++ srcPath ++ "\n")).1
      let out := (Fprintf out "+++ /dev/null\n").1
      ({ w with Writer := out }, none)
    else
      let out := (Fprintf out
        ("index " ++ fmtHex src.ID ++ ".." ++ fmtHex dst.ID ++ " " ++ fmtOctal dst.Mode ++ "\n")).1
      let out := (Fprintf out ("--- " ++ srcPath ++ "\n")).1
      let out := (Fprintf out ("+++ " ++ dstPath ++ "\n")).1
      ({ w with Writer := out }, none)

/-- The method `(*Writer).WriteDiff(a, b io.Reader) error`:
`return w.Differ.Diff(w, a, b)`.  The result carries the writer and the two
readers after the call, and the returned error. -/
def Writer.WriteDiff (w : Diff.Writer) (a b : IoReader) :
    Diff.Writer × IoReader × IoReader × Option GoError :=
  let r := w.Differ.Diff w.Writer a b
  ({ w with Writer := r.1 }, r.2.1, r.2.2.1, r.2.2.2)

/-- The text `WriteHeader` hands to the sink during the call: the payloads of
the `Write` calls it adds, concatenated. -/
def Writer.header (w : Diff.Writer) (src dst : Object) : String :=
  String.join ((w.WriteHeader src dst).1.Writer.writes.drop w.Writer.writes.length)

/-- The behaviour the specification gives for `WriteDiff`: hand the shared
sink and both streams to the injected differ, and return what it returns. -/
def WriteDiffSpec (d : Differ) (sink : IoWriter) (a b : IoReader) :
    IoWriter × IoReader × IoReader × Option GoError :=
  d.Diff sink a b

/-- The values of `srcPath` and `dstPath` when `WriteHeader` reaches its first
`Fprintf`: lines 42 to 55 of the source, past the empty-comparison check. -/
def Writer.paths (w : Diff.Writer) (src dst : Object) : String × String :=
  let srcPath := ""
  let dstPath := ""
  let (srcPath, dstPath) :=
    if src ≠ EmptyObject then
      (filepath.Join w.SrcPrefix src.Path, filepath.Join w.SrcPrefix src.Path)
    else (srcPath, dstPath)
  let (srcPath, dstPath) :=
    if dst ≠ EmptyObject then
      (if srcPath = "" then filepath.Join w.DstPrefix dst.Path else srcPath,
        filepath.Join w.DstPrefix dst.Path)
    else (srcPath, dstPath)
  (srcPath, dstPath)

/-- Two objects agree on `ID`, `Path` and `Mode` and both carry a non-nil
content reader. -/
def sameMetadata (o₁ o₂ : Object) : Prop :=
  o₁.ID = o₂.ID ∧ o₁.Path = o₂.Path ∧ o₁.Mode = o₂.Mode ∧
    o₁.Reader ≠ none ∧ o₂.Reader ≠ none

/-! ## The line differ of package `dmp` -/

/-- Modelled from the spec: `dmp/differ.go`, the line differ that
`differ_test.go` builds with `New()`, is not among the sources.  The lines of a
content are its pieces between newline bytes, as `strings.Split(s, "\n")` gives
them, so that the content is recovered from its lines byte for byte. -/
def splitLines : List Char → List (List Char)
  | [] => [[]]
  | c :: cs =>
    if c = '\n' then [] :: splitLines cs
    else
      match splitLines cs with
      | [] => [[c]]
      | l :: ls => (c :: l) :: ls

/-- Modelled from the spec: the content whose lines are `ls`, the lines joined
by newline bytes (`strings.Join(ls, "\n")`). -/
def joinLines : List (List Char) → List Char
  | [] => []
  | [l] => l
  | l :: ls => l ++ '\n' :: joinLines ls

/-- Modelled from the spec: one line of a hunk body of the absent line differ:
context (in A and B, prefix space), present only in A (prefix `-`), present
only in B (prefix `+`). -/
inductive Edit where
  | keep (line : List Char)
  | del (line : List Char)
  | ins (line : List Char)
deriving DecidableEq

/-- Modelled from the spec: the line that a hunk line of the absent line differ
carries. -/
def Edit.line : Edit → List Char
  | Edit.keep l => l
  | Edit.del l => l
  | Edit.ins l => l

/-- Modelled from the spec: whether a hunk line of the absent line differ is a
context line. -/
def Edit.isKeep : Edit → Bool
  | Edit.keep _ => true
  | _ => false

/-- Modelled from the spec: the number of changed lines in the hunk lines of
the absent line differ. -/
def editCost : List Edit → Nat
  | [] => 0
  | e :: es => (if e.isKeep then 0 else 1) + editCost es

/-- Modelled from the spec: the lines of A that the hunk lines of the absent
line differ stand for: context and `-` lines. -/
def srcLines : List Edit → List (List Char)
  | [] => []
  | Edit.keep l :: es => l :: srcLines es
  | Edit.del l :: es => l :: srcLines es
  | Edit.ins _ :: es => srcLines es

/-- Modelled from the spec: the lines of B that the hunk lines of the absent
line differ stand for: context and `+` lines. -/
def dstLines : List Edit → List (List Char)
  | [] => []
  | Edit.keep l :: es => l :: dstLines es
  | Edit.del _ :: es => dstLines es
  | Edit.ins l :: es => l :: dstLines es

/-- Modelled from the spec: the step of the absent line differ for the first
line `a` of A against the lines of B, given the scripts `rest` for the
remaining lines of A: keep `a` when B starts with it, otherwise the cheaper of
removing `a` and adding the first line of B, removal on a tie. -/
def editStep (a : List Char) (rest : List (List Char) → List Edit) :
    List (List Char) → List Edit
  | [] => Edit.del a :: rest []
  | b :: bs =>
    if a = b then Edit.keep a :: rest bs
    else
      let d₁ := Edit.del a :: rest (b :: bs)
      let d₂ := Edit.ins b :: editStep a rest bs
      if editCost d₁ ≤ editCost d₂ then d₁ else d₂

/-- Modelled from the spec: the line-level diff of the absent line differ, an
edit script from the lines of A to the lines of B by longest common
subsequence (the spec leaves the algorithm to the implementation). -/
def editScript : List (List Char) → List (List Char) → List Edit
  | [] => fun bs => bs.map Edit.ins
  | a :: as => fun bs => editStep a (editScript as) bs

/-- Modelled from the spec: a hunk line of the absent line differ as text: the
prefix character, then the line. -/
def Edit.render : Edit → List Char
  | Edit.keep l => ' ' :: l
  | Edit.del l => '-' :: l
  | Edit.ins l => '+' :: l

/-- Modelled from the spec: the range `<start>[,<len>]` of a hunk marker of the
absent line differ; the length is left out when it is 1. -/
def hunkRange (start len : Nat) : List Char :=
  if len = 1 then Nat.toDigits 10 start
  else Nat.toDigits 10 start ++ ',' :: Nat.toDigits 10 len

/-- Modelled from the spec: the marker
`@@ -<srcStart>[,<srcLen>] +<dstStart>[,<dstLen>] @@` of the hunk that the
absent line differ writes, which starts at line 1 on both sides. -/
def hunkHeader (srcLen dstLen : Nat) : List Char :=
  "@@ -".toList ++ hunkRange 1 srcLen ++ " +".toList ++ hunkRange 1 dstLen ++ " @@".toList

/-- Modelled from the spec: the text the absent line differ writes for the
contents `a` and `b`: nothing when no line changes, otherwise one hunk over all
lines, the marker and the hunk lines each ended by a newline. -/
def unifiedDiff (a b : String) : String :=
  let es := editScript (splitLines a.toList) (splitLines b.toList)
  if es.all Edit.isKeep then ""
  else
    String.mk ((hunkHeader (srcLines es).length (dstLines es).length ::
      es.map Edit.render).flatMap (fun l => l ++ ['\n']))

/-- Modelled from the spec: the method `Diff(out, a, b)` of the absent line
differ `dmp/differ.go`.  It reads both streams to their end and writes the
hunks to `out` in one `Write`, whose error it returns; identical contents give
no write and nil; a nil stream cannot be read and gives a read error. -/
def dmp.Diff (out : IoWriter) (a b : IoReader) :
    IoWriter × IoReader × IoReader × Option GoError :=
  match a, b with
  | some sa, some sb =>
    if unifiedDiff sa sb = "" then (out, some "", some "", none)
    else ((out.Write (unifiedDiff sa sb)).1, some "", some "",
      (out.Write (unifiedDiff sa sb)).2.2)
  | _, _ => (out, a, b, some (GoError.other "read from nil stream"))

/-- Modelled from the spec: the constructor `New()` of the absent package
`dmp`, the differ whose method is `dmp.Diff`. -/
def dmp.New : Differ := ⟨dmp.Diff⟩

/-- Modelled from the spec: the lines of a text in which every line is ended
by a newline, as a reader of the hunks sees them. -/
def scanLines : List Char → List (List Char)
  | [] => []
  | c :: cs =>
    if c = '\n' then [] :: scanLines cs
    else
      match scanLines cs with
      | [] => [[c]]
      | l :: ls => (c :: l) :: ls

/-- Modelled from the spec: reading one hunk line back by its prefix
character. -/
def parseEdit : List Char → Option Edit
  | ' ' :: l => some (Edit.keep l)
  | '-' :: l => some (Edit.del l)
  | '+' :: l => some (Edit.ins l)
  | _ => none

/-- Modelled from the spec: reading the lines of a hunk body back. -/
def parseEdits : List (List Char) → Option (List Edit)
  | [] => some []
  | l :: ls =>
    match parseEdit l, parseEdits ls with
    | some e, some es => some (e :: es)
    | _, _ => none

/-- Modelled from the spec: applying hunk lines to the lines of A from the
first line on: a context line must be the next line of A and is kept, a `-`
line must be the next line of A and is dropped, a `+` line is added; the lines
of A after the hunk are kept. -/
def applyEdits : List Edit → List (List Char) → Option (List (List Char))
  | [], ls => some ls
  | Edit.keep l :: es, a :: ls =>
    if l = a then (applyEdits es ls).map (fun r => a :: r) else none
  | Edit.del l :: es, a :: ls => if l = a then applyEdits es ls else none
  | Edit.ins l :: es, ls => (applyEdits es ls).map (fun r => l :: r)
  | _, _ => none

/-- Modelled from the spec: applying the hunks in the text `patch` to the
content `a`.  An empty text has no hunk and leaves `a` as it is; otherwise the
text is one hunk whose marker must agree with its body, applied from line 1.
The result is `none` when the text is not such a hunk or does not fit `a`. -/
def applyPatch (patch a : String) : Option String :=
  match scanLines patch.toList with
  | [] => some a
  | header :: body =>
    match parseEdits body with
    | none => none
    | some es =>
      if header = hunkHeader (srcLines es).length (dstLines es).length then
        (applyEdits es (splitLines a.toList)).map (fun ls => String.mk (joinLines ls))
      else none

/-! ## Lines of the header, and the content streams as state -/

/-- The lines of a text: its pieces up to each newline byte, the newline left
out; bytes after the last newline, if there are any, form a last line. -/
def textLines : List Char → List (List Char)
  | [] => []
  | c :: cs =>
    if c = '\n' then [] :: textLines cs
    else
      match textLines cs with
      | [] => [[c]]
      | l :: ls => (c :: l) :: ls

/-- The lines of the header text that `WriteHeader` hands to the sink. -/
def Writer.headerLines (w : Diff.Writer) (src dst : Object) : List String :=
  (textLines (w.header src dst).toList).map String.mk

/-- What a call of `WriteHeader` can act on: the sink of the writer, and the
content streams behind `src.Reader` and `dst.Reader`, each with what it has
left to deliver.  A `Read` on a stream would shorten it. -/
structure World where
  out : IoWriter
  srcStream : IoReader
  dstStream : IoReader

/-- The call `fmt.Fprintf(w, ...)` as a step on the world: one `Write` on the
sink; the streams are not among its arguments. -/
def World.Fprintf (σ : World) (text : String) : World × Nat × Option GoError :=
  ({ σ with out := (Diff.Fprintf σ.out text).1 }, (Diff.Fprintf σ.out text).2)

/-- The method `(*Writer).WriteHeader(src, dst Object) error` as a run on the
world that starts with the sink of `w` and the streams of `src` and `dst`:
the world after the call and the returned error.  Statement by statement as
in the source: the comparisons with `EmptyObject` and the path assignments
(lines 42 to 55) act on no state, and each remaining statement is an
`Fprintf`; no statement calls `Read` on `src` or `dst`. -/
def Writer.WriteHeaderWorld (w : Diff.Writer) (src dst : Object) :
    World × Option GoError :=
  let σ : World := { out := w.Writer, srcStream := src.Reader, dstStream := dst.Reader }
  if src = EmptyObject ∧ dst = EmptyObject then
    (σ, some GoError.ErrEmptyComparsion)
  else
    let srcPath := (w.paths src dst).1
    let dstPath := (w.paths src dst).2
    let σ := (σ.Fprintf ("diff --git " ++ srcPath ++ " " ++ dstPath ++ "\n")).1
    if src = EmptyObject then
      let σ := (σ.Fprintf ("new file mode " ++ fmtOctal dst.Mode ++ "\n")).1
      let σ := (σ.Fprintf ("index " ++ fmtHex src.ID ++ ".." ++ fmtHex dst.ID ++ "\n")).1
      let σ := (σ.Fprintf "--- /dev/null\n").1
      let σ := (σ.Fprintf ("+++ " ++ dstPath ++ "\n")).1
      (σ, none)
    else if dst = EmptyObject then
      let σ := (σ.Fprintf ("deleted file mode " ++ fmtOctal src.Mode ++ "\n")).1
      let σ := (σ.Fprintf ("index " ++ fmtHex src.ID ++ ".." ++ fmtHex dst.ID ++ "\n")).1
      let σ := (σ.Fprintf ("--- " ++ srcPath ++ "\n")).1
      let σ := (σ.Fprintf "+++ /dev/null\n").1
      (σ, none)
    else
      let σ := (σ.Fprintf
        ("index " ++ fmtHex src.ID ++ ".." ++ fmtHex dst.ID ++ " " ++ fmtOctal dst.Mode ++ "\n")).1
      let σ := (σ.Fprintf ("--- " ++ srcPath ++ "\n")).1
      let σ := (σ.Fprintf ("+++ " ++ dstPath ++ "\n")).1
      (σ, none)

/-- The method `(*Writer).WriteDiff(a, b io.Reader) error` as a run on the
world with sink `w.Writer` and streams `a`, `b`: the differ receives all
three. -/
def Writer.WriteDiffWorld (w : Diff.Writer) (a b : IoReader) : World × Option GoError :=
  ({ out := (w.Differ.Diff w.Writer a b).1, srcStream := (w.Differ.Diff w.Writer a b).2.1,
     dstStream := (w.Differ.Diff w.Writer a b).2.2.1 }, (w.Differ.Diff w.Writer a b).2.2.2)

/-! ## Sample values -/

/-- A differ that writes nothing and reports no error. -/
def idleDiffer : Differ := ⟨fun out a b => (out, a, b, none)⟩

/-- A writer over an empty in-memory buffer, with empty prefixes. -/
def plainWriter : Diff.Writer :=
  { Writer := bufferSink [], Differ := idleDiffer, SrcPrefix := "", DstPrefix := "" }

/-- A writer over an empty in-memory buffer, with the prefixes `a` and `b`. -/
def abWriter : Diff.Writer :=
  { Writer := bufferSink [], Differ := idleDiffer, SrcPrefix := "a", DstPrefix := "b" }

/-- A writer whose sink rejects every write with the error `disk full`. -/
def brokenWriter : Diff.Writer :=
  { Writer := brokenSink (GoError.other "disk full"), Differ := idleDiffer,
    SrcPrefix := "", DstPrefix := "" }

/-- An object id whose first byte is 1 and last byte is 0xab. -/
def sampleID : ObjectID :=
  ⟨[1, 2, 255, 0, 0, 0, 0, 0, 0, 0, 0, 0, 0, 0, 0, 0, 0, 0, 0, 171], rfl⟩

/-- A regular file `x` with mode 0o100644. -/
def fileX : Object :=
  { Reader := some "foo\n", ID := sampleID, Path := "x", Mode := 0o100644 }

/-- A regular file `y` with mode 0o100755 and an all-zero id. -/
def fileY : Object :=
  { Reader := some "bar\n", ID := ObjectID.zero, Path := "y", Mode := 0o100755 }

/-- An object that is not `EmptyObject` (its id and content are set) but whose
path is empty. -/
def noPath : Object :=
  { Reader := some "foo\n", ID := sampleID, Path := "", Mode := 0o100644 }

/-- An object whose only non-zero field is its content reader. -/
def readerOnly : Object :=
  { Reader := some "foo\n", ID := ObjectID.zero, Path := "", Mode := 0 }

/-- The file `fileX` with other content behind its reader. -/
def fileX2 : Object :=
  { Reader := some "something else", ID := sampleID, Path := "x", Mode := 0o100644 }

/-- A present object whose path holds two newlines around the text
`new file mode 100644`. -/
def markerPath : Object :=
  { Reader := some "foo\n", ID := sampleID, Path := "x\nnew file mode 100644\ny",
    Mode := 0o100644 }

/-- A differ that reads both streams to their end and writes nothing. -/
def drainingDiffer : Differ :=
  ⟨fun out a b => (out, a.map (fun _ => ""), b.map (fun _ => ""), none)⟩

/-- A writer over an empty buffer whose differ is `drainingDiffer`. -/
def drainWriter : Diff.Writer :=
  { Writer := bufferSink [], Differ := drainingDiffer, SrcPrefix := "a", DstPrefix := "b" }

/-! ## Shared lemmas -/

theorem element_pos (path : List Char) (r : Nat) (h : r < path.length)
    (hs : IsPathSeparator (path.getD r '/') = false) :
    0 < ((path.drop r).takeWhile (fun c => !IsPathSeparator c)).length := by
  rw [List.getD_eq_getElem _ _ h] at hs
  rw [List.drop_eq_getElem_cons h, List.takeWhile_cons]
  simp [hs]

theorem cleanLoop_fuel (path : List Char) (rooted : Bool) :
    ∀ (fuel r : Nat) (out : List Char) (dotdot : Nat), path.length < r + fuel →
      cleanLoop path rooted (fuel + 1) r out dotdot = cleanLoop path rooted fuel r out dotdot := by
  intro fuel
  induction fuel with
  | zero =>
    intro r out dotdot h
    have : ¬ r < path.length := by omega
    simp [cleanLoop, this]
  | succ k ih =>
    intro r out dotdot h
    rw [cleanLoop]
    conv_rhs => rw [cleanLoop]
    by_cases hr : r < path.length
    · simp only [hr, if_true]
      split
      · exact ih _ _ _ (by omega)
      · split
        · exact ih _ _ _ (by omega)
        · split
          · split
            · exact ih _ _ _ (by omega)
            · split
              · exact ih _ _ _ (by omega)
              · exact ih _ _ _ (by omega)
          · rename_i hsep _ _
            have := element_pos path r hr (by simpa using hsep)
            exact ih _ _ _ (by omega)
    · simp [hr]

/-- The loop of `filepath.Clean` never runs out of its first argument: once it
exceeds the number of bytes left to read, any larger value gives the same
result. -/
theorem cleanLoop_stable (path : List Char) (rooted : Bool) (fuel r : Nat)
    (out : List Char) (dotdot : Nat) (h : path.length < r + fuel) (extra : Nat) :
    cleanLoop path rooted (fuel + extra) r out dotdot =
      cleanLoop path rooted fuel r out dotdot := by
  induction extra with
  | zero => rfl
  | succ e ih =>
    rw [← Nat.add_assoc, cleanLoop_fuel path rooted (fuel + e) r out dotdot (by omega), ih]

theorem join_append (xs ys : List String) :
    String.join (xs ++ ys) = String.join xs ++ String.join ys := by
  have key : ∀ (l : List String) (acc : String),
      List.foldl (fun r s => r ++ s) acc l = acc ++ String.join l := by
    intro l
    induction l with
    | nil => intro acc; simp [String.join]
    | cons x t ih =>
      intro acc
      simp only [String.join, List.foldl_cons]
      rw [ih (acc ++ x), ih ("" ++ x)]
      simp [String.join, String.append_assoc]
  simp only [String.join, List.foldl_append]
  exact key ys _

theorem hexBytes_length (l : List (Fin 256)) :
    (l.flatMap fmtHexByte).length = 2 * l.length := by
  induction l with
  | nil => rfl
  | cons b t ih => simp [List.flatMap_cons, fmtHexByte, ih]; omega

theorem fmtHex_length (id : ObjectID) : (fmtHex id).length = 40 := by
  show (id.bytes.flatMap fmtHexByte).length = 40
  rw [hexBytes_length, id.size]

theorem ldigits_lower (i : Nat) (h : i < 16) :
    ldigits.getD i '0' ∈ "0123456789abcdef".toList := by
  interval_cases i <;> decide

theorem fmtHex_lower (id : ObjectID) :
    ∀ c ∈ (fmtHex id).toList, c ∈ "0123456789abcdef".toList := by
  intro c hc
  simp only [fmtHex, String.toList, List.mem_flatMap] at hc
  obtain ⟨b, -, hb⟩ := hc
  simp only [fmtHexByte, List.mem_cons, List.mem_singleton, List.not_mem_nil, or_false] at hb
  rcases hb with rfl | rfl
  · exact ldigits_lower _ (by have := b.isLt; omega)
  · exact ldigits_lower _ (Nat.mod_lt _ (by decide))

theorem fmtHex_zero :
    fmtHex EmptyObject.ID = "0000000000000000000000000000000000000000" := by decide

theorem writeHeader_empty (w : Diff.Writer) :
    w.WriteHeader EmptyObject EmptyObject = (w, some GoError.ErrEmptyComparsion) := by
  simp [Writer.WriteHeader]

theorem writeHeader_create (w : Diff.Writer) (dst : Object) (h : dst ≠ EmptyObject) :
    w.WriteHeader EmptyObject dst =
      ({ w with Writer := { w.Writer with writes := w.Writer.writes ++
          ["diff --git " ++ filepath.Join w.DstPrefix dst.Path ++ " " ++
              filepath.Join w.DstPrefix dst.Path ++ "\n",
            "new file mode " ++ fmtOctal dst.Mode ++ "\n",
            "index " ++ fmtHex EmptyObject.ID ++ ".." ++ fmtHex dst.ID ++ "\n",
            "--- /dev/null\n",
            "+++ " ++ filepath.Join w.DstPrefix dst.Path ++ "\n"] } }, none) := by
  have h' : ¬ (EmptyObject = dst) := fun e => h e.symm
  simp [Writer.WriteHeader, Fprintf, IoWriter.Write, h, h']

theorem writeHeader_delete (w : Diff.Writer) (src : Object) (h : src ≠ EmptyObject) :
    w.WriteHeader src EmptyObject =
      ({ w with Writer := { w.Writer with writes := w.Writer.writes ++
          ["diff --git " ++ filepath.Join w.SrcPrefix src.Path ++ " " ++
              filepath.Join w.SrcPrefix src.Path ++ "\n",
            "deleted file mode " ++ fmtOctal src.Mode ++ "\n",
            "index " ++ fmtHex src.ID ++ ".." ++ fmtHex EmptyObject.ID ++ "\n",
            "--- " ++ filepath.Join w.SrcPrefix src.Path ++ "\n",
            "+++ /dev/null\n"] } }, none) := by
  simp [Writer.WriteHeader, Fprintf, IoWriter.Write, h]

theorem writeHeader_modify (w : Diff.Writer) (src dst : Object)
    (hs : src ≠ EmptyObject) (hd : dst ≠ EmptyObject) :
    w.WriteHeader src dst =
      ({ w with Writer := { w.Writer with writes := w.Writer.writes ++
          ["diff --git " ++
              (if filepath.Join w.SrcPrefix src.Path = "" then filepath.Join w.DstPrefix dst.Path
                else filepath.Join w.SrcPrefix src.Path) ++ " " ++
              filepath.Join w.DstPrefix dst.Path ++ "\n",
            "index " ++ fmtHex src.ID ++ ".." ++ fmtHex dst.ID ++ " " ++
              fmtOctal dst.Mode ++ "\n",
            "--- " ++ (if filepath.Join w.SrcPrefix src.Path = "" then
                filepath.Join w.DstPrefix dst.Path
              else filepath.Join w.SrcPrefix src.Path) ++ "\n",
            "+++ " ++ filepath.Join w.DstPrefix dst.Path ++ "\n"] } }, none) := by
  simp [Writer.WriteHeader, Fprintf, IoWriter.Write, hs, hd]

theorem infix_head (l t : List Char) : l <:+: l ++ t := ⟨[], t, by simp⟩

theorem infix_skip (a : List Char) {l m : List Char} (h : l <:+: m) : l <:+: a ++ m := by
  obtain ⟨s, t, e⟩ := h
  exact ⟨a ++ s, t, by simp [← e, List.append_assoc]⟩

theorem suffix_skip (a : List Char) {l m : List Char} (h : l <:+ m) : l <:+ a ++ m := by
  obtain ⟨s, e⟩ := h
  exact ⟨a ++ s, by simp [← e, List.append_assoc]⟩

theorem header_delete (w : Diff.Writer) (src : Object) (h : src ≠ EmptyObject) :
    (w.header src EmptyObject).toList =
      ("diff --git " ++ filepath.Join w.SrcPrefix src.Path ++ " " ++
          filepath.Join w.SrcPrefix src.Path ++ "\n").toList ++
        ("deleted file mode".toList ++ ((" " ++ fmtOctal src.Mode ++ "\n").toList ++
          (("index " ++ fmtHex src.ID ++ ".." ++ fmtHex EmptyObject.ID).toList ++
          (("\n--- " ++ filepath.Join w.SrcPrefix src.Path).toList ++
          "\n+++ /dev/null\n".toList)))) := by
  simp [Writer.header, writeHeader_delete w src h, String.join, String.toList,
    List.append_assoc]

theorem header_create (w : Diff.Writer) (dst : Object) (h : dst ≠ EmptyObject) :
    (w.header EmptyObject dst).toList =
      ("diff --git " ++ filepath.Join w.DstPrefix dst.Path ++ " " ++
          filepath.Join w.DstPrefix dst.Path ++ "\n").toList ++
        ("new file mode".toList ++ ((" " ++ fmtOctal dst.Mode ++ "\n").toList ++
          (("index " ++ fmtHex EmptyObject.ID ++ ".." ++ fmtHex dst.ID).toList ++
          ("\n--- /dev/null\n".toList ++
          ("+++ " ++ filepath.Join w.DstPrefix dst.Path ++ "\n").toList)))) := by
  simp [Writer.header, writeHeader_create w dst h, String.join, String.toList,
    List.append_assoc]

/-! ## The empty comparison -/

/-- C1: for every writer (any prefixes, any sink), `WriteHeader` on two
`EmptyObject`s returns `ErrEmptyComparsion` and leaves the writer, and with it
the sink, exactly as it was: no `Write` call is made and the bytes handed to
the sink are unchanged. -/
theorem WriteHeader_empty_comparison (w : Diff.Writer) :
    (w.WriteHeader EmptyObject EmptyObject).2 = some GoError.ErrEmptyComparsion ∧
    (w.WriteHeader EmptyObject EmptyObject).1 = w ∧
    (w.WriteHeader EmptyObject EmptyObject).1.Writer.writes = w.Writer.writes ∧
    (w.WriteHeader EmptyObject EmptyObject).1.Writer.contents = w.Writer.contents ∧
    w.header EmptyObject EmptyObject = "" := by
  simp [Writer.header, writeHeader_empty w, String.join]

/-! ## Creation, deletion, modification -/

/-- C2 (creation): for every `dst` other than `EmptyObject`, with `src` equal
to `EmptyObject`, `WriteHeader` returns nil and appends to the sink exactly the
five lines `diff --git P P`, `new file mode M`, `index Z..H`, `--- /dev/null`,
`+++ P`, each ended by a newline, where `P = filepath.Join(DstPrefix, dst.Path)`,
`M` is `dst.Mode` in octal, `Z` is forty `0` characters and `H` is the
40-character lowercase hex of `dst.ID`.  With empty prefixes and
`dst = {Path "x", Mode 0o100644, ID D}` the lines are `diff --git x x`,
`new file mode 100644`, `index 0000000000000000000000000000000000000000..<hex D>`,
`--- /dev/null`, `+++ x`. -/
theorem WriteHeader_creation (w : Diff.Writer) (dst : Object) (h : dst ≠ EmptyObject) :
    (w.WriteHeader EmptyObject dst).2 = none ∧
    (w.WriteHeader EmptyObject dst).1.Writer.writes = w.Writer.writes ++
      ["diff --git " ++ filepath.Join w.DstPrefix dst.Path ++ " " ++
          filepath.Join w.DstPrefix dst.Path ++ "\n",
        "new file mode " ++ fmtOctal dst.Mode ++ "\n",
        "index 0000000000000000000000000000000000000000.." ++ fmtHex dst.ID ++ "\n",
        "--- /dev/null\n",
        "+++ " ++ filepath.Join w.DstPrefix dst.Path ++ "\n"] ∧
    (w.WriteHeader EmptyObject dst).1.Writer.contents = w.Writer.contents ++
      ("diff --git " ++ filepath.Join w.DstPrefix dst.Path ++ " " ++
          filepath.Join w.DstPrefix dst.Path ++ "\n" ++
        ("new file mode " ++ fmtOctal dst.Mode ++ "\n") ++
        ("index 0000000000000000000000000000000000000000.." ++ fmtHex dst.ID ++ "\n") ++
        "--- /dev/null\n" ++
        ("+++ " ++ filepath.Join w.DstPrefix dst.Path ++ "\n")) ∧
    (fmtHex dst.ID).length = 40 ∧
    (∀ c ∈ (fmtHex dst.ID).toList, c ∈ "0123456789abcdef".toList) ∧
    (∀ (r : IoReader) (D : ObjectID),
      ({ w with SrcPrefix := "", DstPrefix := "" }.WriteHeader EmptyObject
          { Reader := r, ID := D, Path := "x", Mode := 0o100644 }).1.Writer.writes =
        w.Writer.writes ++
          ["diff --git x x\n",
            "new file mode 100644\n",
            "index 0000000000000000000000000000000000000000.." ++ fmtHex D ++ "\n",
            "--- /dev/null\n",
            "+++ x\n"]) := by
  have hx : filepath.Join "" "x" = "x" := by decide
  have hm : fmtOctal 0o100644 = "100644" := by decide
  refine ⟨?_, ?_, ?_, fmtHex_length _, fmtHex_lower _, ?_⟩
  · rw [writeHeader_create w dst h]
  · rw [writeHeader_create w dst h, fmtHex_zero]
    simp [String.append_assoc]
  · rw [writeHeader_create w dst h, fmtHex_zero]
    simp [IoWriter.contents, join_append, String.join, String.append_assoc]
  · intro r D
    have hne : ({ Reader := r, ID := D, Path := "x", Mode := 0o100644 } : Object) ≠
        EmptyObject := by
      intro e
      have := congrArg Object.Path e
      simp [EmptyObject] at this
    rw [writeHeader_create _ _ hne, fmtHex_zero]
    simp [hx, hm, String.append_assoc]

/-- The creation header of `fileX` under the prefixes `a`, `b`. -/
theorem WriteHeader_creation_witness :
    fileX ≠ EmptyObject ∧
    (abWriter.WriteHeader EmptyObject fileX).2 = none ∧
    (abWriter.WriteHeader EmptyObject fileX).1.Writer.writes =
      ["diff --git b/x b/x\n",
        "new file mode 100644\n",
        "index 0000000000000000000000000000000000000000.." ++
          "0102ff00000000000000000000000000000000ab\n",
        "--- /dev/null\n",
        "+++ b/x\n"] :=
  ⟨by decide, (WriteHeader_creation abWriter fileX (by decide)).1,
    (WriteHeader_creation abWriter fileX (by decide)).2.1.trans (by decide)⟩

/-- C3 (deletion): for every `src` other than `EmptyObject`, with `dst` equal
to `EmptyObject`, `WriteHeader` returns nil and appends to the sink exactly the
five lines `diff --git P P`, `deleted file mode M`, `index H..Z`, `--- P`,
`+++ /dev/null`, each ended by a newline, where
`P = filepath.Join(SrcPrefix, src.Path)` fills both path slots, `M` is
`src.Mode` in octal, `H` is the 40-character lowercase hex of `src.ID` and `Z`
is forty `0` characters. -/
theorem WriteHeader_deletion (w : Diff.Writer) (src : Object) (h : src ≠ EmptyObject) :
    (w.WriteHeader src EmptyObject).2 = none ∧
    (w.WriteHeader src EmptyObject).1.Writer.writes = w.Writer.writes ++
      ["diff --git " ++ filepath.Join w.SrcPrefix src.Path ++ " " ++
          filepath.Join w.SrcPrefix src.Path ++ "\n",
        "deleted file mode " ++ fmtOctal src.Mode ++ "\n",
        "index " ++ fmtHex src.ID ++ "..0000000000000000000000000000000000000000\n",
        "--- " ++ filepath.Join w.SrcPrefix src.Path ++ "\n",
        "+++ /dev/null\n"] ∧
    (w.WriteHeader src EmptyObject).1.Writer.contents = w.Writer.contents ++
      ("diff --git " ++ filepath.Join w.SrcPrefix src.Path ++ " " ++
          filepath.Join w.SrcPrefix src.Path ++ "\n" ++
        ("deleted file mode " ++ fmtOctal src.Mode ++ "\n") ++
        ("index " ++ fmtHex src.ID ++ "..0000000000000000000000000000000000000000\n") ++
        ("--- " ++ filepath.Join w.SrcPrefix src.Path ++ "\n") ++
        "+++ /dev/null\n") ∧
    (fmtHex src.ID).length = 40 ∧
    (∀ c ∈ (fmtHex src.ID).toList, c ∈ "0123456789abcdef".toList) := by
  refine ⟨?_, ?_, ?_, fmtHex_length _, fmtHex_lower _⟩
  · rw [writeHeader_delete w src h]
  · rw [writeHeader_delete w src h, fmtHex_zero]
    simp [String.append_assoc]
  · rw [writeHeader_delete w src h, fmtHex_zero]
    simp [IoWriter.contents, join_append, String.join, String.append_assoc]

/-- The deletion header of `fileX` under the prefixes `a`, `b`. -/
theorem WriteHeader_deletion_witness :
    fileX ≠ EmptyObject ∧
    (abWriter.WriteHeader fileX EmptyObject).2 = none ∧
    (abWriter.WriteHeader fileX EmptyObject).1.Writer.writes =
      ["diff --git a/x a/x\n",
        "deleted file mode 100644\n",
        "index 0102ff00000000000000000000000000000000ab.." ++
          "0000000000000000000000000000000000000000\n",
        "--- a/x\n",
        "+++ /dev/null\n"] :=
  ⟨by decide, (WriteHeader_deletion abWriter fileX (by decide)).1,
    (WriteHeader_deletion abWriter fileX (by decide)).2.1.trans (by decide)⟩

/-- C4 fails as stated: with an empty `SrcPrefix` and a present `src` whose
path is empty, `filepath.Join(SrcPrefix, src.Path)` is the empty string, and
the header prints the destination path `x` in the source slots (`diff --git x x`,
`--- x`) instead of the empty string. -/
theorem WriteHeader_modification_counterexample :
    noPath ≠ EmptyObject ∧ fileX ≠ EmptyObject ∧
    filepath.Join plainWriter.SrcPrefix noPath.Path = "" ∧
    (plainWriter.WriteHeader noPath fileX).1.Writer.writes =
      ["diff --git x x\n",
        "index 0102ff00000000000000000000000000000000ab.." ++
          "0102ff00000000000000000000000000000000ab 100644\n",
        "--- x\n",
        "+++ x\n"] ∧
    (plainWriter.WriteHeader noPath fileX).1.Writer.writes ≠
      plainWriter.Writer.writes ++
        ["diff --git " ++ filepath.Join plainWriter.SrcPrefix noPath.Path ++ " " ++
            filepath.Join plainWriter.DstPrefix fileX.Path ++ "\n",
          "index " ++ fmtHex noPath.ID ++ ".." ++ fmtHex fileX.ID ++ " " ++
            fmtOctal fileX.Mode ++ "\n",
          "--- " ++ filepath.Join plainWriter.SrcPrefix noPath.Path ++ "\n",
          "+++ " ++ filepath.Join plainWriter.DstPrefix fileX.Path ++ "\n"] := by
  decide

/-- C4 (modification), amended: for every `src` and `dst` that both differ from
`EmptyObject`, and every pair of prefixes, `WriteHeader` returns nil and appends
to the sink exactly `diff --git S D`, `index Hs..Hd M`, `--- S`, `+++ D`, each
ended by a newline, where `D = filepath.Join(DstPrefix, dst.Path)`, `S` is
`filepath.Join(SrcPrefix, src.Path)` when that is not empty and `D` otherwise,
`Hs` and `Hd` are the lowercase hex of `src.ID` and `dst.ID`, and `M` is
`dst.Mode` in octal.  In particular, when `filepath.Join(SrcPrefix, src.Path)`
is not empty the lines are those of the original statement. -/
theorem WriteHeader_modification (w : Diff.Writer) (src dst : Object)
    (hs : src ≠ EmptyObject) (hd : dst ≠ EmptyObject) :
    (w.WriteHeader src dst).2 = none ∧
    (w.WriteHeader src dst).1.Writer.writes = w.Writer.writes ++
      ["diff --git " ++
          (if filepath.Join w.SrcPrefix src.Path = "" then filepath.Join w.DstPrefix dst.Path
            else filepath.Join w.SrcPrefix src.Path) ++ " " ++
          filepath.Join w.DstPrefix dst.Path ++ "\n",
        "index " ++ fmtHex src.ID ++ ".." ++ fmtHex dst.ID ++ " " ++ fmtOctal dst.Mode ++ "\n",
        "--- " ++
          (if filepath.Join w.SrcPrefix src.Path = "" then filepath.Join w.DstPrefix dst.Path
            else filepath.Join w.SrcPrefix src.Path) ++ "\n",
        "+++ " ++ filepath.Join w.DstPrefix dst.Path ++ "\n"] ∧
    (filepath.Join w.SrcPrefix src.Path ≠ "" →
      (w.WriteHeader src dst).1.Writer.writes = w.Writer.writes ++
        ["diff --git " ++ filepath.Join w.SrcPrefix src.Path ++ " " ++
            filepath.Join w.DstPrefix dst.Path ++ "\n",
          "index " ++ fmtHex src.ID ++ ".." ++ fmtHex dst.ID ++ " " ++
            fmtOctal dst.Mode ++ "\n",
          "--- " ++ filepath.Join w.SrcPrefix src.Path ++ "\n",
          "+++ " ++ filepath.Join w.DstPrefix dst.Path ++ "\n"]) ∧
    (fmtHex src.ID).length = 40 ∧ (fmtHex dst.ID).length = 40 ∧
    (∀ c ∈ (fmtHex src.ID).toList ++ (fmtHex dst.ID).toList,
      c ∈ "0123456789abcdef".toList) := by
  refine ⟨?_, ?_, ?_, fmtHex_length _, fmtHex_length _, ?_⟩
  · rw [writeHeader_modify w src dst hs hd]
  · rw [writeHeader_modify w src dst hs hd]
  · intro hne
    rw [writeHeader_modify w src dst hs hd]
    simp [hne]
  · intro c hc
    rcases List.mem_append.mp hc with hc | hc
    · exact fmtHex_lower _ c hc
    · exact fmtHex_lower _ c hc

/-- The modification header from `fileX` to `fileY` under the prefixes `a`,
`b`. -/
theorem WriteHeader_modification_witness :
    fileX ≠ EmptyObject ∧ fileY ≠ EmptyObject ∧
    (abWriter.WriteHeader fileX fileY).2 = none ∧
    (abWriter.WriteHeader fileX fileY).1.Writer.writes =
      ["diff --git a/x b/y\n",
        "index 0102ff00000000000000000000000000000000ab.." ++
          "0000000000000000000000000000000000000000 100755\n",
        "--- a/x\n",
        "+++ b/y\n"] :=
  ⟨by decide, by decide, (WriteHeader_modification abWriter fileX fileY (by decide) (by decide)).1,
    (WriteHeader_modification abWriter fileX fileY (by decide) (by decide)).2.1.trans
      (by decide)⟩

/-! ## Returned errors -/

/-- C5: for every writer, `src` and `dst`, `WriteHeader` returns a non-nil error
if and only if `src` and `dst` both equal `EmptyObject`; on every other input it
returns nil; and the only error it ever returns is `ErrEmptyComparsion`. -/
theorem WriteHeader_error_iff (w : Diff.Writer) (src dst : Object) :
    ((w.WriteHeader src dst).2 ≠ none ↔ src = EmptyObject ∧ dst = EmptyObject) ∧
    (¬ (src = EmptyObject ∧ dst = EmptyObject) → (w.WriteHeader src dst).2 = none) ∧
    (∀ e, (w.WriteHeader src dst).2 = some e → e = GoError.ErrEmptyComparsion) := by
  by_cases hs : src = EmptyObject
  · by_cases hd : dst = EmptyObject
    · subst hs hd
      simp [writeHeader_empty w]
    · subst hs
      simp [writeHeader_create w dst hd, hd]
  · by_cases hd : dst = EmptyObject
    · subst hd
      simp [writeHeader_delete w src hs, hs]
    · simp [writeHeader_modify w src dst hs hd, hs]

/-- C6 fails as stated: on a sink that rejects every write with `disk full`,
the first `Fprintf` of a creation header gets that error back, the header
lines are still handed to the sink, and `WriteHeader` returns nil, not the
sink error. -/
theorem WriteHeader_sink_error_counterexample :
    fileX ≠ EmptyObject ∧
    (Fprintf brokenWriter.Writer "diff --git x x\n").2.2 = some (GoError.other "disk full") ∧
    (brokenWriter.WriteHeader EmptyObject fileX).1.Writer.writes =
      ["diff --git x x\n",
        "new file mode 100644\n",
        "index 0000000000000000000000000000000000000000.." ++
          "0102ff00000000000000000000000000000000ab\n",
        "--- /dev/null\n",
        "+++ x\n"] ∧
    (brokenWriter.WriteHeader EmptyObject fileX).2 = none ∧
    (brokenWriter.WriteHeader EmptyObject fileX).2 ≠ some (GoError.other "disk full") := by
  decide

/-- C6, amended: when `src` and `dst` are not both `EmptyObject`, `WriteHeader`
discards whatever the sink's `Write` returns, errors included: for every sink
behaviour it returns nil and still makes all of its `Write` calls, five when one
side is `EmptyObject` and four otherwise, leaving the sink's behaviour and the
other fields of the writer as they were. -/
theorem WriteHeader_discards_sink_errors (w : Diff.Writer) (src dst : Object)
    (h : ¬ (src = EmptyObject ∧ dst = EmptyObject)) :
    (w.WriteHeader src dst).2 = none ∧
    (w.WriteHeader src dst).1.Writer.writes.length =
      w.Writer.writes.length + (if src = EmptyObject ∨ dst = EmptyObject then 5 else 4) ∧
    (w.WriteHeader src dst).1.Writer.respond = w.Writer.respond ∧
    (w.WriteHeader src dst).1.Differ = w.Differ ∧
    (w.WriteHeader src dst).1.SrcPrefix = w.SrcPrefix ∧
    (w.WriteHeader src dst).1.DstPrefix = w.DstPrefix := by
  by_cases hs : src = EmptyObject
  · have hd : dst ≠ EmptyObject := fun e => h ⟨hs, e⟩
    subst hs
    simp [writeHeader_create w dst hd]
  · by_cases hd : dst = EmptyObject
    · subst hd
      simp [writeHeader_delete w src hs]
    · simp [writeHeader_modify w src dst hs hd, hs, hd]

/-- On the sink that rejects every write, the creation header of `fileX` still
makes five `Write` calls and returns nil. -/
theorem WriteHeader_discards_sink_errors_witness :
    ¬ (EmptyObject = EmptyObject ∧ fileX = EmptyObject) ∧
    (brokenWriter.Writer.respond [] "diff --git x x\n").2 = some (GoError.other "disk full") ∧
    (brokenWriter.WriteHeader EmptyObject fileX).2 = none ∧
    (brokenWriter.WriteHeader EmptyObject fileX).1.Writer.writes.length = 5 :=
  ⟨by decide, by decide,
    (WriteHeader_discards_sink_errors brokenWriter EmptyObject fileX (by decide)).1,
    (WriteHeader_discards_sink_errors brokenWriter EmptyObject fileX (by decide)).2.1.trans
      (by decide)⟩

/-! ## The diff body -/

/-- C7: for every writer `w` with differ `d` and all streams `a`, `b` (nil
included), `w.WriteDiff(a, b)` is `d.Diff` run on the sink of `w`: it returns
exactly the error `d` returns, the sink and the two streams end up exactly as
`d` leaves them, so the sink receives what `d` writes and nothing else, the
prefixes and the differ are unchanged, and `WriteDiff` returns
`ErrEmptyComparsion` only when `d` itself does. -/
theorem WriteDiff_delegates (w : Diff.Writer) (a b : IoReader) :
    (w.WriteDiff a b).2.2.2 = (WriteDiffSpec w.Differ w.Writer a b).2.2.2 ∧
    (w.WriteDiff a b).1.Writer = (WriteDiffSpec w.Differ w.Writer a b).1 ∧
    (w.WriteDiff a b).2.1 = (WriteDiffSpec w.Differ w.Writer a b).2.1 ∧
    (w.WriteDiff a b).2.2.1 = (WriteDiffSpec w.Differ w.Writer a b).2.2.1 ∧
    (w.WriteDiff a b).1.Differ = w.Differ ∧
    (w.WriteDiff a b).1.SrcPrefix = w.SrcPrefix ∧
    (w.WriteDiff a b).1.DstPrefix = w.DstPrefix ∧
    ((w.WriteDiff a b).2.2.2 = some GoError.ErrEmptyComparsion ↔
      (w.Differ.Diff w.Writer a b).2.2.2 = some GoError.ErrEmptyComparsion) := by
  simp [Writer.WriteDiff, WriteDiffSpec]

/-! ## Markers of deletion and creation -/

/-- C8 fails as stated: the header for deleting `fileX` (present `src`,
`dst = EmptyObject`) contains neither the text `new file mode` nor the text
`--- /dev/null`; its lines are those of a deletion. -/
theorem WriteHeader_deletion_markers_counterexample :
    fileX ≠ EmptyObject ∧
    plainWriter.header fileX EmptyObject =
      "diff --git x x\ndeleted file mode 100644\n" ++
      "index 0102ff00000000000000000000000000000000ab.." ++
      "0000000000000000000000000000000000000000\n--- x\n+++ /dev/null\n" ∧
    ¬ ("new file mode".toList <:+: (plainWriter.header fileX EmptyObject).toList) ∧
    ¬ ("--- /dev/null".toList <:+: (plainWriter.header fileX EmptyObject).toList) := by
  decide

/-- C8, amended: for every `src` other than `EmptyObject`, with `dst` equal to
`EmptyObject`, the header written by `WriteHeader` contains the text
`deleted file mode` and the line `+++ /dev/null`: that line is one of the
writes, and in the header text it stands between two newlines, at the end. -/
theorem WriteHeader_deletion_markers (w : Diff.Writer) (src : Object)
    (h : src ≠ EmptyObject) :
    "deleted file mode".toList <:+: (w.header src EmptyObject).toList ∧
    "+++ /dev/null\n" ∈
      (w.WriteHeader src EmptyObject).1.Writer.writes.drop w.Writer.writes.length ∧
    "\n+++ /dev/null\n".toList <:+ (w.header src EmptyObject).toList := by
  refine ⟨?_, ?_, ?_⟩
  · rw [header_delete w src h]
    exact infix_skip _ (infix_head _ _)
  · simp [writeHeader_delete w src h]
  · rw [header_delete w src h]
    exact suffix_skip _ (suffix_skip _ (suffix_skip _ (suffix_skip _ (suffix_skip _
      (List.suffix_refl _)))))

/-- The deletion header of `fileX` carries the deletion markers. -/
theorem WriteHeader_deletion_markers_witness :
    fileX ≠ EmptyObject ∧
    "deleted file mode".toList <:+: (abWriter.header fileX EmptyObject).toList ∧
    "\n+++ /dev/null\n".toList <:+ (abWriter.header fileX EmptyObject).toList :=
  ⟨by decide, (WriteHeader_deletion_markers abWriter fileX (by decide)).1,
    (WriteHeader_deletion_markers abWriter fileX (by decide)).2.2⟩

/-- C9 fails as stated: the header for creating `fileX` (`src = EmptyObject`,
present `dst`) contains neither the text `deleted file mode` nor the text
`+++ /dev/null`; its lines are those of a creation. -/
theorem WriteHeader_creation_markers_counterexample :
    fileX ≠ EmptyObject ∧
    plainWriter.header EmptyObject fileX =
      "diff --git x x\nnew file mode 100644\n" ++
      "index 0000000000000000000000000000000000000000.." ++
      "0102ff00000000000000000000000000000000ab\n--- /dev/null\n+++ x\n" ∧
    ¬ ("deleted file mode".toList <:+: (plainWriter.header EmptyObject fileX).toList) ∧
    ¬ ("+++ /dev/null".toList <:+: (plainWriter.header EmptyObject fileX).toList) := by
  decide

/-- C9, amended: for every `dst` other than `EmptyObject`, with `src` equal to
`EmptyObject`, the header written by `WriteHeader` contains the text
`new file mode` and the line `--- /dev/null`: that line is one of the writes,
and in the header text it stands between two newlines. -/
theorem WriteHeader_creation_markers (w : Diff.Writer) (dst : Object)
    (h : dst ≠ EmptyObject) :
    "new file mode".toList <:+: (w.header EmptyObject dst).toList ∧
    "--- /dev/null\n" ∈
      (w.WriteHeader EmptyObject dst).1.Writer.writes.drop w.Writer.writes.length ∧
    "\n--- /dev/null\n".toList <:+: (w.header EmptyObject dst).toList := by
  refine ⟨?_, ?_, ?_⟩
  · rw [header_create w dst h]
    exact infix_skip _ (infix_head _ _)
  · simp [writeHeader_create w dst h]
  · rw [header_create w dst h]
    exact infix_skip _ (infix_skip _ (infix_skip _ (infix_skip _ (infix_head _ _))))

/-- The creation header of `fileX` carries the creation markers. -/
theorem WriteHeader_creation_markers_witness :
    fileX ≠ EmptyObject ∧
    "new file mode".toList <:+: (abWriter.header EmptyObject fileX).toList ∧
    "\n--- /dev/null\n".toList <:+: (abWriter.header EmptyObject fileX).toList :=
  ⟨by decide, (WriteHeader_creation_markers abWriter fileX (by decide)).1,
    (WriteHeader_creation_markers abWriter fileX (by decide)).2.2⟩

/-! ## Absence, determinism, paths and content -/

theorem objectID_zero_iff (id : ObjectID) :
    id = ObjectID.zero ↔ ∀ b ∈ id.bytes, b = 0 := by
  constructor
  · rintro rfl b hb
    exact List.eq_of_mem_replicate hb
  · intro h
    have e : id.bytes = List.replicate 20 0 :=
      List.eq_replicate_iff.mpr ⟨id.size, h⟩
    cases id with
    | mk bytes size =>
      simp only [ObjectID.zero, ObjectID.mk.injEq]
      exact e

theorem emptyObject_iff (o : Object) :
    o = EmptyObject ↔
      o.Reader = none ∧ (∀ b ∈ o.ID.bytes, b = 0) ∧ o.Path = "" ∧ o.Mode = 0 := by
  rw [← objectID_zero_iff]
  cases o with
  | mk r i p m => simp [EmptyObject]

/-- C11: `WriteHeader` treats an object as absent exactly when it equals
`EmptyObject`, that is, when its reader is nil, every byte of its ID is zero,
its path is empty and its mode is 0.  For such an object paired with itself the
call fails with `ErrEmptyComparsion`; any other object is a present endpoint:
as `src` against `EmptyObject` it gets the deletion header and as `dst` the
creation header, both with a nil result.  This includes every object whose only
non-zero field is a non-nil content reader. -/
theorem WriteHeader_absent_iff (w : Diff.Writer) (o : Object) :
    (o = EmptyObject ↔
      o.Reader = none ∧ (∀ b ∈ o.ID.bytes, b = 0) ∧ o.Path = "" ∧ o.Mode = 0) ∧
    ((w.WriteHeader o EmptyObject).2 = some GoError.ErrEmptyComparsion ↔ o = EmptyObject) ∧
    ((w.WriteHeader EmptyObject o).2 = some GoError.ErrEmptyComparsion ↔ o = EmptyObject) ∧
    (o ≠ EmptyObject →
      (w.WriteHeader o EmptyObject).2 = none ∧
      ((w.WriteHeader o EmptyObject).1.Writer.writes.drop w.Writer.writes.length)[1]? =
        some ("deleted file mode " ++ fmtOctal o.Mode ++ "\n") ∧
      (w.WriteHeader EmptyObject o).2 = none ∧
      ((w.WriteHeader EmptyObject o).1.Writer.writes.drop w.Writer.writes.length)[1]? =
        some ("new file mode " ++ fmtOctal o.Mode ++ "\n")) ∧
    (∀ content : String,
      ({ Reader := some content, ID := ObjectID.zero, Path := "", Mode := 0 } : Object) ≠
        EmptyObject ∧
      (w.WriteHeader { Reader := some content, ID := ObjectID.zero, Path := "", Mode := 0 }
        EmptyObject).2 = none ∧
      ((w.WriteHeader { Reader := some content, ID := ObjectID.zero, Path := "", Mode := 0 }
        EmptyObject).1.Writer.writes.drop w.Writer.writes.length)[1]? =
        some "deleted file mode 0\n") := by
  refine ⟨emptyObject_iff o, ?_, ?_, ?_, ?_⟩
  · by_cases h : o = EmptyObject
    · subst h
      simp [writeHeader_empty]
    · simp [writeHeader_delete w o h, h]
  · by_cases h : o = EmptyObject
    · subst h
      simp [writeHeader_empty]
    · simp [writeHeader_create w o h, h]
  · intro h
    simp [writeHeader_delete w o h, writeHeader_create w o h]
  · intro content
    have hne : ({ Reader := some content, ID := ObjectID.zero, Path := "", Mode := 0 } :
        Object) ≠ EmptyObject := by
      intro e
      have := congrArg Object.Reader e
      simp [EmptyObject] at this
    have hm : fmtOctal 0 = "0" := by decide
    refine ⟨hne, ?_, ?_⟩
    · simp [writeHeader_delete w _ hne]
    · simp [writeHeader_delete w _ hne, hm]

/-- C12: rendering is deterministic.  Two `WriteHeader` calls with the same
`src` and `dst`, on writers that have the same prefixes and start from an empty
sink (whatever their differ and however their sinks respond to writes), return
the same result and hand byte-identical text to their sinks, write for write. -/
theorem WriteHeader_deterministic (w₁ w₂ : Diff.Writer) (src dst : Object)
    (hs : w₁.SrcPrefix = w₂.SrcPrefix) (hd : w₁.DstPrefix = w₂.DstPrefix)
    (h₁ : w₁.Writer.writes = []) (h₂ : w₂.Writer.writes = []) :
    (w₁.WriteHeader src dst).2 = (w₂.WriteHeader src dst).2 ∧
    (w₁.WriteHeader src dst).1.Writer.writes = (w₂.WriteHeader src dst).1.Writer.writes ∧
    (w₁.WriteHeader src dst).1.Writer.contents =
      (w₂.WriteHeader src dst).1.Writer.contents := by
  have key : (w₁.WriteHeader src dst).2 = (w₂.WriteHeader src dst).2 ∧
      (w₁.WriteHeader src dst).1.Writer.writes =
        (w₂.WriteHeader src dst).1.Writer.writes := by
    by_cases es : src = EmptyObject
    · by_cases ed : dst = EmptyObject
      · subst es ed
        simp [writeHeader_empty, h₁, h₂]
      · subst es
        simp [writeHeader_create _ dst ed, h₁, h₂, hd]
    · by_cases ed : dst = EmptyObject
      · subst ed
        simp [writeHeader_delete _ src es, h₁, h₂, hs]
      · simp [writeHeader_modify _ src dst es ed, h₁, h₂, hs, hd]
  exact ⟨key.1, key.2, by simp [IoWriter.contents, key.2]⟩

/-- A buffer and a sink that rejects every write receive the same header for
the change from `fileX` to `fileY`. -/
theorem WriteHeader_deterministic_witness :
    plainWriter.Writer.writes = [] ∧ brokenWriter.Writer.writes = [] ∧
    (plainWriter.WriteHeader fileX fileY).2 = (brokenWriter.WriteHeader fileX fileY).2 ∧
    (plainWriter.WriteHeader fileX fileY).1.Writer.contents =
      (brokenWriter.WriteHeader fileX fileY).1.Writer.contents :=
  ⟨rfl, rfl,
    (WriteHeader_deterministic plainWriter brokenWriter fileX fileY rfl rfl rfl rfl).1,
    (WriteHeader_deterministic plainWriter brokenWriter fileX fileY rfl rfl rfl rfl).2.2⟩

/-! ## The line differ: lines and hunks -/

theorem splitLines_ne_nil (s : List Char) : splitLines s ≠ [] := by
  cases s with
  | nil => simp [splitLines]
  | cons c cs =>
    simp only [splitLines]
    split
    · simp
    · split <;> simp

theorem joinLines_cons (l : List Char) (ls : List (List Char)) (h : ls ≠ []) :
    joinLines (l :: ls) = l ++ '\n' :: joinLines ls := by
  cases ls with
  | nil => exact absurd rfl h
  | cons x xs => rfl

theorem joinLines_splitLines (s : List Char) : joinLines (splitLines s) = s := by
  induction s with
  | nil => rfl
  | cons c cs ih =>
    simp only [splitLines]
    split
    · rename_i hc
      rw [joinLines_cons _ _ (splitLines_ne_nil cs), ih, hc]
      rfl
    · split
      · rename_i h
        exact absurd h (splitLines_ne_nil cs)
      · rename_i l ls h
        rw [h] at ih
        cases ls with
        | nil =>
          simp only [joinLines] at ih ⊢
          rw [ih]
        | cons x xs =>
          rw [joinLines_cons _ _ (by simp)] at ih ⊢
          rw [List.cons_append, ih]

theorem splitLines_no_newline (s : List Char) : ∀ l ∈ splitLines s, '\n' ∉ l := by
  induction s with
  | nil => simp [splitLines]
  | cons c cs ih =>
    simp only [splitLines]
    split
    · intro l hl
      rcases List.mem_cons.mp hl with rfl | hl
      · simp
      · exact ih l hl
    · rename_i hc
      split
      · intro l hl
        simp only [List.mem_singleton] at hl
        subst hl
        simpa using fun e => hc e.symm
      · rename_i l₀ ls h
        rw [h] at ih
        intro l hl
        rcases List.mem_cons.mp hl with rfl | hl
        · have := ih l₀ (List.mem_cons_self _ _)
          simp only [List.mem_cons, not_or]
          exact ⟨fun e => hc e.symm, this⟩
        · exact ih l (List.mem_cons_of_mem _ hl)

theorem scanLines_line (l rest : List Char) (h : '\n' ∉ l) :
    scanLines (l ++ '\n' :: rest) = l :: scanLines rest := by
  induction l with
  | nil => simp [scanLines]
  | cons c cs ih =>
    simp only [List.mem_cons, not_or] at h
    have hc : ¬ c = '\n' := fun e => h.1 e.symm
    have e := ih h.2
    simp only [List.cons_append, scanLines, hc, if_false]
    rw [show cs.append ('\n' :: rest) = cs ++ '\n' :: rest from rfl, e]

theorem scanLines_render (ls : List (List Char)) (h : ∀ l ∈ ls, '\n' ∉ l) :
    scanLines (ls.flatMap (fun l => l ++ ['\n'])) = ls := by
  induction ls with
  | nil => rfl
  | cons l t ih =>
    simp only [List.flatMap_cons, List.append_assoc, List.singleton_append]
    rw [scanLines_line l _ (h l (List.mem_cons_self _ _)),
      ih (fun x hx => h x (List.mem_cons_of_mem _ hx))]

theorem srcLines_ins (bs : List (List Char)) : srcLines (bs.map Edit.ins) = [] := by
  induction bs with
  | nil => rfl
  | cons b t ih => simpa [srcLines] using ih

theorem dstLines_ins (bs : List (List Char)) : dstLines (bs.map Edit.ins) = bs := by
  induction bs with
  | nil => rfl
  | cons b t ih => simpa [dstLines] using ih

theorem editStep_lines (a : List Char) (as : List (List Char))
    (rest : List (List Char) → List Edit)
    (hsrc : ∀ bs, srcLines (rest bs) = as) (hdst : ∀ bs, dstLines (rest bs) = bs) :
    ∀ bs, srcLines (editStep a rest bs) = a :: as ∧ dstLines (editStep a rest bs) = bs := by
  intro bs
  induction bs with
  | nil => simp [editStep, srcLines, dstLines, hsrc, hdst]
  | cons b t ih =>
    simp only [editStep]
    split
    · rename_i hab
      simp [srcLines, dstLines, hsrc, hdst, hab]
    · split
      · simp [srcLines, dstLines, hsrc, hdst]
      · simp [srcLines, dstLines, ih.1, ih.2]

theorem editScript_lines (as : List (List Char)) :
    ∀ bs, srcLines (editScript as bs) = as ∧ dstLines (editScript as bs) = bs := by
  induction as with
  | nil =>
    intro bs
    exact ⟨srcLines_ins bs, dstLines_ins bs⟩
  | cons a t ih =>
    intro bs
    exact editStep_lines a t (editScript t) (fun bs => (ih bs).1) (fun bs => (ih bs).2) bs

theorem editScript_self (ls : List (List Char)) :
    editScript ls ls = ls.map Edit.keep := by
  induction ls with
  | nil => rfl
  | cons a t ih => simp [editScript, editStep, ih]

theorem all_keep_lines (es : List Edit) (h : es.all Edit.isKeep = true) :
    srcLines es = dstLines es := by
  induction es with
  | nil => rfl
  | cons e t ih =>
    simp only [List.all_cons, Bool.and_eq_true] at h
    cases e with
    | keep l => simp [srcLines, dstLines, ih h.2]
    | del l => simp [Edit.isKeep] at h
    | ins l => simp [Edit.isKeep] at h

theorem applyEdits_lines (es : List Edit) (tail : List (List Char)) :
    applyEdits es (srcLines es ++ tail) = some (dstLines es ++ tail) := by
  induction es with
  | nil => simp [applyEdits, srcLines, dstLines]
  | cons e t ih =>
    cases e with
    | keep l => simp [applyEdits, srcLines, dstLines, ih]
    | del l => simp [applyEdits, srcLines, dstLines, ih]
    | ins l =>
      cases hsrc : srcLines t ++ tail with
      | nil => simp [applyEdits, srcLines, dstLines, hsrc] at ih ⊢; exact ih
      | cons x xs => simp [applyEdits, srcLines, dstLines, hsrc] at ih ⊢; exact ih

theorem parseEdits_render (es : List Edit) :
    parseEdits (es.map Edit.render) = some es := by
  induction es with
  | nil => rfl
  | cons e t ih =>
    cases e <;> simp [parseEdits, parseEdit, Edit.render, ih]

theorem edit_line_mem (es : List Edit) :
    ∀ e ∈ es, e.line ∈ srcLines es ∨ e.line ∈ dstLines es := by
  induction es with
  | nil => simp
  | cons x t ih =>
    intro e he
    rcases List.mem_cons.mp he with rfl | he
    · cases e <;> simp [Edit.line, srcLines, dstLines]
    · rcases ih e he with h | h
      · left
        cases x <;> simp [srcLines, h]
      · right
        cases x <;> simp [dstLines, h]

theorem render_no_newline (e : Edit) (h : '\n' ∉ e.line) : '\n' ∉ e.render := by
  cases e <;> simp [Edit.line] at h <;> simp [Edit.render, h]

theorem digitChar_ne_newline (n : Nat) (h : n < 10) : Nat.digitChar n ≠ '\n' := by
  interval_cases n <;> decide

theorem toDigitsCore_no_newline (fuel : Nat) :
    ∀ (n : Nat) (ds : List Char), '\n' ∉ ds → '\n' ∉ Nat.toDigitsCore 10 fuel n ds := by
  induction fuel with
  | zero => intro n ds h; simpa [Nat.toDigitsCore] using h
  | succ k ih =>
    intro n ds h
    have hd : '\n' ∉ Nat.digitChar (n % 10) :: ds := by
      simp only [List.mem_cons, not_or]
      exact ⟨fun e => digitChar_ne_newline _ (Nat.mod_lt _ (by decide)) e.symm, h⟩
    simp only [Nat.toDigitsCore]
    split
    · exact hd
    · exact ih _ _ hd

theorem toDigits_no_newline (n : Nat) : '\n' ∉ Nat.toDigits 10 n := by
  unfold Nat.toDigits
  exact toDigitsCore_no_newline _ _ _ (by simp)

theorem hunkHeader_no_newline (m n : Nat) : '\n' ∉ hunkHeader m n := by
  have h1 := toDigits_no_newline 1
  have hm := toDigits_no_newline m
  have hn := toDigits_no_newline n
  have a : '\n' ∉ "@@ -".toList := by decide
  have b : '\n' ∉ " +".toList := by decide
  have c : '\n' ∉ " @@".toList := by decide
  have r : ∀ k, '\n' ∉ Nat.toDigits 10 k → '\n' ∉ hunkRange 1 k := by
    intro k hk
    unfold hunkRange
    split
    · exact h1
    · simp only [List.mem_append, List.mem_cons, not_or]
      exact ⟨h1, by decide, hk⟩
  simp only [hunkHeader, List.mem_append, not_or]
  exact ⟨⟨⟨⟨a, r m hm⟩, b⟩, r n hn⟩, c⟩

theorem string_eq_of_toList {a b : String} (h : a.toList = b.toList) : a = b := by
  cases a; cases b; simp_all [String.toList]

/-- The hunks written for `a` and `b`, applied to `a`, give `b`. -/
theorem applyPatch_unifiedDiff (a b : String) : applyPatch (unifiedDiff a b) a = some b := by
  have hl := editScript_lines (splitLines a.toList) (splitLines b.toList)
  have hmem := edit_line_mem (editScript (splitLines a.toList) (splitLines b.toList))
  have hkeep := all_keep_lines (editScript (splitLines a.toList) (splitLines b.toList))
  have happ := applyEdits_lines (editScript (splitLines a.toList) (splitLines b.toList)) []
  unfold unifiedDiff
  simp only
  generalize editScript (splitLines a.toList) (splitLines b.toList) = es at *
  split
  · rename_i hk
    have e := hkeep hk
    rw [hl.1, hl.2] at e
    have : a.toList = b.toList := by
      rw [← joinLines_splitLines a.toList, ← joinLines_splitLines b.toList, e]
    rw [string_eq_of_toList this]
    rfl
  · have hnl : ∀ l ∈ hunkHeader (srcLines es).length (dstLines es).length ::
        es.map Edit.render, '\n' ∉ l := by
      intro l hl'
      rcases List.mem_cons.mp hl' with rfl | hl'
      · exact hunkHeader_no_newline _ _
      · obtain ⟨e, he, rfl⟩ := List.mem_map.mp hl'
        apply render_no_newline
        rcases hmem e he with h | h
        · rw [hl.1] at h
          exact splitLines_no_newline _ _ h
        · rw [hl.2] at h
          exact splitLines_no_newline _ _ h
    have hscan := scanLines_render _ hnl
    rw [hl.1, hl.2, List.append_nil, List.append_nil] at happ
    unfold applyPatch
    rw [show (String.mk ((hunkHeader (srcLines es).length (dstLines es).length ::
      es.map Edit.render).flatMap (fun l => l ++ ['\n']))).toList =
      (hunkHeader (srcLines es).length (dstLines es).length ::
      es.map Edit.render).flatMap (fun l => l ++ ['\n']) from rfl, hscan]
    simp only [parseEdits_render, if_true, happ, Option.map_some', joinLines_splitLines]
    rfl

theorem unifiedDiff_self (a : String) : unifiedDiff a a = "" := by
  simp [unifiedDiff, editScript_self, Edit.isKeep]

/-! ## The line differ: round trip and identical contents -/

/-- C13 (round trip), against the line differ modelled from the spec: for all
contents `A` and `B` and every sink, `Diff` hands the sink the hunks for
`(A, B)` and nothing else, and applying what it wrote to `A` gives back `B`
exactly; this covers empty and identical contents.  On the four cases of
`differ_test.go` the output is the expected text and the error is nil; for
`A = "foo"`, `B = "foo\nbar"` it is `@@ -1 +1,2 @@`, ` foo`, `+bar`. -/
theorem Diff_round_trip (out : IoWriter) (A B : String) :
    (dmp.New.Diff out (some A) (some B)).1.writes =
      out.writes ++ (if unifiedDiff A B = "" then [] else [unifiedDiff A B]) ∧
    applyPatch
      (String.join ((dmp.New.Diff out (some A) (some B)).1.writes.drop out.writes.length))
      A = some B ∧
    (dmp.New.Diff (bufferSink []) (some "") (some "")).1.contents = "" ∧
    (dmp.New.Diff (bufferSink []) (some "") (some "")).2.2.2 = none ∧
    (dmp.New.Diff (bufferSink []) (some "foo") (some "foo\nbar")).1.contents =
      "@@ -1 +1,2 @@\n foo\n+bar\n" ∧
    (dmp.New.Diff (bufferSink []) (some "foo") (some "foo\nbar")).2.2.2 = none ∧
    (dmp.New.Diff (bufferSink []) (some "foo\nbar") (some "foo")).1.contents =
      "@@ -1,2 +1 @@\n foo\n-bar\n" ∧
    (dmp.New.Diff (bufferSink []) (some "foo\nbar") (some "foo")).2.2.2 = none ∧
    (dmp.New.Diff (bufferSink []) (some "foo\nbar") (some "bar")).1.contents =
      "@@ -1,2 +1 @@\n-foo\n bar\n" ∧
    (dmp.New.Diff (bufferSink []) (some "foo\nbar") (some "bar")).2.2.2 = none := by
  have hw : (dmp.New.Diff out (some A) (some B)).1.writes =
      out.writes ++ (if unifiedDiff A B = "" then [] else [unifiedDiff A B]) := by
    by_cases h : unifiedDiff A B = ""
    · simp [dmp.New, dmp.Diff, h]
    · simp [dmp.New, dmp.Diff, h, IoWriter.Write]
  refine ⟨hw, ?_, by decide, by decide, by decide, by decide, by decide, by decide,
    by decide, by decide⟩
  rw [hw, List.drop_left]
  by_cases h : unifiedDiff A B = ""
  · have := applyPatch_unifiedDiff A B
    rw [h] at this
    simpa [h, String.join] using this
  · simpa [h, String.join] using applyPatch_unifiedDiff A B

/-- C14, against the line differ modelled from the spec: for every content `A`,
empty or not, and every sink, `Diff(out, A, A)` leaves the sink as it was,
making no write, and returns nil; on two empty inputs the output is the empty
text and the error is nil. -/
theorem Diff_identical (out : IoWriter) (A : String) :
    (dmp.New.Diff out (some A) (some A)).1 = out ∧
    (dmp.New.Diff out (some A) (some A)).1.writes = out.writes ∧
    (dmp.New.Diff out (some A) (some A)).2.2.2 = none ∧
    unifiedDiff A A = "" ∧
    (dmp.New.Diff (bufferSink []) (some "") (some "")).1.contents = "" ∧
    (dmp.New.Diff (bufferSink []) (some "") (some "")).2.2.2 = none ∧
    (dmp.New.Diff (bufferSink []) (some "foo\nbar\n") (some "foo\nbar\n")).1.contents = "" := by
  have h := unifiedDiff_self A
  refine ⟨?_, ?_, ?_, h, by decide, by decide, by decide⟩ <;> simp [dmp.New, dmp.Diff, h]

/-! ## Source-path fallback and independence of content -/

theorem mk_ne_empty (l : List Char) (h : l ≠ []) : String.mk l ≠ "" := by
  intro e
  exact h (congrArg String.data e)

theorem clean_ne_empty (path : String) : Clean path ≠ "" := by
  unfold Clean
  split
  · decide
  · have key : ∀ out : List Char, (if out.length = 0 then ['.'] else out) ≠ [] := by
      intro out
      by_cases h : out.length = 0
      · simp [h]
      · rw [if_neg h]
        intro e
        exact h (by rw [e]; rfl)
    exact mk_ne_empty _ (key _)

theorem join_eq_empty_iff (a b : String) :
    filepath.Join a b = "" ↔ a = "" ∧ b = "" := by
  unfold filepath.Join
  by_cases ha : a = ""
  · by_cases hb : b = ""
    · simp [ha, hb]
    · simp [ha, hb, clean_ne_empty]
  · simp [ha, clean_ne_empty]

theorem paths_empty_slot (w : Diff.Writer) (src dst : Object) :
    (w.paths src dst).1 = "" → (w.paths src dst).2 = "" := by
  unfold Writer.paths
  by_cases es : src = EmptyObject <;> by_cases ed : dst = EmptyObject <;>
    simp [es, ed]
  intro h₁
  split at h₁
  · exact h₁
  · rename_i hne
    exact absurd h₁ hne

theorem writeHeader_first (w : Diff.Writer) (src dst : Object)
    (h : (w.WriteHeader src dst).2 = none) :
    ((w.WriteHeader src dst).1.Writer.writes.drop w.Writer.writes.length)[0]? =
      some ("diff --git " ++ (w.paths src dst).1 ++ " " ++ (w.paths src dst).2 ++ "\n") := by
  by_cases es : src = EmptyObject
  · by_cases ed : dst = EmptyObject
    · subst es ed
      simp [writeHeader_empty] at h
    · subst es
      simp [writeHeader_create w dst ed, Writer.paths, ed]
  · by_cases ed : dst = EmptyObject
    · subst ed
      simp [writeHeader_delete w src es, Writer.paths, es]
    · simp [writeHeader_modify w src dst es ed, Writer.paths, es, ed]

/-- C15 (source-path fallback): for every `src` and `dst` that both differ from
`EmptyObject`, the path in the first slot of the `diff --git` line and on the
`---` line is `filepath.Join(SrcPrefix, src.Path)` when that is not empty, and
`filepath.Join(DstPrefix, dst.Path)` when it is empty, which happens exactly
when `SrcPrefix` and `src.Path` are both empty; the second slot and the `+++`
line always carry `filepath.Join(DstPrefix, dst.Path)`.  In every header that
`WriteHeader` writes with a nil result, an empty first path slot implies an
empty second path slot. -/
theorem WriteHeader_source_path_fallback (w : Diff.Writer) (src dst : Object)
    (hs : src ≠ EmptyObject) (hd : dst ≠ EmptyObject) :
    (w.WriteHeader src dst).1.Writer.writes.drop w.Writer.writes.length =
      ["diff --git " ++ (w.paths src dst).1 ++ " " ++ (w.paths src dst).2 ++ "\n",
        "index " ++ fmtHex src.ID ++ ".." ++ fmtHex dst.ID ++ " " ++ fmtOctal dst.Mode ++ "\n",
        "--- " ++ (w.paths src dst).1 ++ "\n",
        "+++ " ++ (w.paths src dst).2 ++ "\n"] ∧
    (filepath.Join w.SrcPrefix src.Path ≠ "" →
      (w.paths src dst).1 = filepath.Join w.SrcPrefix src.Path) ∧
    (filepath.Join w.SrcPrefix src.Path = "" →
      (w.paths src dst).1 = filepath.Join w.DstPrefix dst.Path) ∧
    (filepath.Join w.SrcPrefix src.Path = "" ↔ w.SrcPrefix = "" ∧ src.Path = "") ∧
    (w.paths src dst).2 = filepath.Join w.DstPrefix dst.Path ∧
    (∀ s d : Object, (w.WriteHeader s d).2 = none →
      ((w.WriteHeader s d).1.Writer.writes.drop w.Writer.writes.length)[0]? =
        some ("diff --git " ++ (w.paths s d).1 ++ " " ++ (w.paths s d).2 ++ "\n") ∧
      ((w.paths s d).1 = "" → (w.paths s d).2 = "")) := by
  refine ⟨?_, ?_, ?_, join_eq_empty_iff _ _, ?_, ?_⟩
  · simp [writeHeader_modify w src dst hs hd, Writer.paths, hs, hd]
  · intro h
    simp [Writer.paths, hs, hd, h]
  · intro h
    simp [Writer.paths, hs, hd, h]
  · simp [Writer.paths, hs, hd]
  · intro s d h
    exact ⟨writeHeader_first w s d h, paths_empty_slot w s d⟩

/-- With empty prefixes, the header from `noPath` (present, path empty) to
`fileX` prints `x` in the source slots. -/
theorem WriteHeader_source_path_fallback_witness :
    noPath ≠ EmptyObject ∧ fileX ≠ EmptyObject ∧
    filepath.Join plainWriter.SrcPrefix noPath.Path = "" ∧
    (plainWriter.WriteHeader noPath fileX).1.Writer.writes.drop
        plainWriter.Writer.writes.length =
      ["diff --git x x\n",
        "index 0102ff00000000000000000000000000000000ab.." ++
          "0102ff00000000000000000000000000000000ab 100644\n",
        "--- x\n",
        "+++ x\n"] :=
  ⟨by decide, by decide, by decide,
    (WriteHeader_source_path_fallback plainWriter noPath fileX (by decide) (by decide)).1.trans
      (by decide)⟩

theorem sameMetadata_present {o₁ o₂ : Object} (h : sameMetadata o₁ o₂) :
    o₁ ≠ EmptyObject ∧ o₂ ≠ EmptyObject := by
  obtain ⟨-, -, -, h₁, h₂⟩ := h
  constructor
  · intro e
    exact h₁ (by rw [e]; rfl)
  · intro e
    exact h₂ (by rw [e]; rfl)

theorem writeHeader_congr (w : Diff.Writer) (s₁ s₂ d₁ d₂ : Object)
    (hse : s₁ = EmptyObject ↔ s₂ = EmptyObject) (hsi : s₁.ID = s₂.ID)
    (hsp : s₁.Path = s₂.Path) (hsm : s₁.Mode = s₂.Mode)
    (hde : d₁ = EmptyObject ↔ d₂ = EmptyObject) (hdi : d₁.ID = d₂.ID)
    (hdp : d₁.Path = d₂.Path) (hdm : d₁.Mode = d₂.Mode) :
    w.WriteHeader s₁ d₁ = w.WriteHeader s₂ d₂ := by
  unfold Writer.WriteHeader
  simp only [ne_eq, hse, hsi, hsp, hsm, hde, hdi, hdp, hdm]

theorem writeHeaderWorld_streams (w : Diff.Writer) (src dst : Object) :
    (w.WriteHeaderWorld src dst).1.srcStream = src.Reader ∧
    (w.WriteHeaderWorld src dst).1.dstStream = dst.Reader := by
  unfold Writer.WriteHeaderWorld
  by_cases es : src = EmptyObject <;> by_cases ed : dst = EmptyObject <;>
    simp [es, ed, World.Fprintf]

theorem writeHeaderWorld_run (w : Diff.Writer) (src dst : Object) :
    (w.WriteHeaderWorld src dst).1.out = (w.WriteHeader src dst).1.Writer ∧
    (w.WriteHeaderWorld src dst).2 = (w.WriteHeader src dst).2 := by
  by_cases es : src = EmptyObject
  · by_cases ed : dst = EmptyObject
    · subst es ed
      simp [writeHeader_empty, Writer.WriteHeaderWorld]
    · subst es
      simp [writeHeader_create w dst ed, Writer.WriteHeaderWorld, Writer.paths, ed,
        World.Fprintf, Fprintf, IoWriter.Write]
  · by_cases ed : dst = EmptyObject
    · subst ed
      simp [writeHeader_delete w src es, Writer.WriteHeaderWorld, Writer.paths, es,
        World.Fprintf, Fprintf, IoWriter.Write]
    · simp [writeHeader_modify w src dst es ed, Writer.WriteHeaderWorld, Writer.paths, es, ed,
        World.Fprintf, Fprintf, IoWriter.Write]

/-- C16: the header does not depend on file content.  For objects `o₁`, `o₂`
that agree on `ID`, `Path` and `Mode` and both carry a non-nil content reader,
whatever the readers hold, `WriteHeader` gives the same writer state (the same
bytes handed to the sink) and the same result with `o₁` as with `o₂`, as `src`,
as `dst`, or on both sides against another such pair.  And `WriteHeader`
never reads from the content stream of `src` or of `dst`: run on the world that
holds the sink and both streams, it leaves each stream, for all `src` and
`dst`, exactly as it was before the call, while the sink and the result are
those of `WriteHeader`; the same world does register reads, since `WriteDiff`
with a differ that reads its streams leaves both drained. -/
theorem WriteHeader_ignores_content (w : Diff.Writer) (o₁ o₂ : Object)
    (h : sameMetadata o₁ o₂) :
    (∀ other : Object, w.WriteHeader o₁ other = w.WriteHeader o₂ other) ∧
    (∀ other : Object, w.WriteHeader other o₁ = w.WriteHeader other o₂) ∧
    (∀ p₁ p₂ : Object, sameMetadata p₁ p₂ → w.WriteHeader o₁ p₁ = w.WriteHeader o₂ p₂) ∧
    (∀ other : Object, w.header o₁ other = w.header o₂ other ∧
      w.header other o₁ = w.header other o₂) ∧
    (∀ (c₁ c₂ : String) (id : ObjectID) (path : String) (mode : Int) (other : Object),
      w.WriteHeader { Reader := some c₁, ID := id, Path := path, Mode := mode } other =
        w.WriteHeader { Reader := some c₂, ID := id, Path := path, Mode := mode } other ∧
      w.WriteHeader other { Reader := some c₁, ID := id, Path := path, Mode := mode } =
        w.WriteHeader other { Reader := some c₂, ID := id, Path := path, Mode := mode }) ∧
    (∀ src dst : Object,
      (w.WriteHeaderWorld src dst).1.srcStream = src.Reader ∧
      (w.WriteHeaderWorld src dst).1.dstStream = dst.Reader) ∧
    (∀ src dst : Object,
      (w.WriteHeaderWorld src dst).1.out = (w.WriteHeader src dst).1.Writer ∧
      (w.WriteHeaderWorld src dst).2 = (w.WriteHeader src dst).2) ∧
    (∀ other : Object,
      (w.WriteHeaderWorld o₁ other).1.out = (w.WriteHeaderWorld o₂ other).1.out ∧
      (w.WriteHeaderWorld other o₁).1.out = (w.WriteHeaderWorld other o₂).1.out ∧
      (w.WriteHeaderWorld o₁ other).2 = (w.WriteHeaderWorld o₂ other).2 ∧
      (w.WriteHeaderWorld other o₁).2 = (w.WriteHeaderWorld other o₂).2 ∧
      (w.WriteHeaderWorld o₁ other).1.srcStream = o₁.Reader ∧
      (w.WriteHeaderWorld o₂ other).1.srcStream = o₂.Reader ∧
      (w.WriteHeaderWorld other o₁).1.dstStream = o₁.Reader ∧
      (w.WriteHeaderWorld other o₂).1.dstStream = o₂.Reader) ∧
    ((drainWriter.WriteDiffWorld fileX.Reader fileY.Reader).1.srcStream = some "" ∧
      (drainWriter.WriteDiffWorld fileX.Reader fileY.Reader).1.dstStream = some "" ∧
      fileX.Reader = some "foo\n" ∧ fileY.Reader = some "bar\n") := by
  have key : ∀ {a b : Object}, sameMetadata a b →
      (a = EmptyObject ↔ b = EmptyObject) := by
    intro a b hab
    have := sameMetadata_present hab
    simp [this.1, this.2]
  have src : ∀ other : Object, w.WriteHeader o₁ other = w.WriteHeader o₂ other :=
    fun other => writeHeader_congr w o₁ o₂ other other (key h) h.1 h.2.1 h.2.2.1
      Iff.rfl rfl rfl rfl
  have dst : ∀ other : Object, w.WriteHeader other o₁ = w.WriteHeader other o₂ :=
    fun other => writeHeader_congr w other other o₁ o₂ Iff.rfl rfl rfl rfl
      (key h) h.1 h.2.1 h.2.2.1
  refine ⟨src, dst, ?_, ?_, ?_, writeHeaderWorld_streams w, writeHeaderWorld_run w, ?_,
    by decide⟩
  rotate_left 3
  · intro other
    refine ⟨?_, ?_, ?_, ?_, (writeHeaderWorld_streams w _ _).1,
      (writeHeaderWorld_streams w _ _).1, (writeHeaderWorld_streams w _ _).2,
      (writeHeaderWorld_streams w _ _).2⟩
    · rw [(writeHeaderWorld_run w _ _).1, (writeHeaderWorld_run w _ _).1, src other]
    · rw [(writeHeaderWorld_run w _ _).1, (writeHeaderWorld_run w _ _).1, dst other]
    · rw [(writeHeaderWorld_run w _ _).2, (writeHeaderWorld_run w _ _).2, src other]
    · rw [(writeHeaderWorld_run w _ _).2, (writeHeaderWorld_run w _ _).2, dst other]
  · intro p₁ p₂ hp
    exact writeHeader_congr w o₁ o₂ p₁ p₂ (key h) h.1 h.2.1 h.2.2.1
      (key hp) hp.1 hp.2.1 hp.2.2.1
  · intro other
    simp [Writer.header, src other, dst other]
  · intro c₁ c₂ id path mode other
    have hc : sameMetadata { Reader := some c₁, ID := id, Path := path, Mode := mode }
        { Reader := some c₂, ID := id, Path := path, Mode := mode } := by
      simp [sameMetadata]
    exact ⟨writeHeader_congr w _ _ other other (key hc) rfl rfl rfl Iff.rfl rfl rfl rfl,
      writeHeader_congr w other other _ _ Iff.rfl rfl rfl rfl (key hc) rfl rfl rfl⟩

/-- The files `fileX` and `fileX2` differ only in content and get the same
header. -/
theorem WriteHeader_ignores_content_witness :
    sameMetadata fileX fileX2 ∧ fileX.Reader ≠ fileX2.Reader ∧
    abWriter.WriteHeader fileX fileY = abWriter.WriteHeader fileX2 fileY ∧
    abWriter.WriteHeader EmptyObject fileX = abWriter.WriteHeader EmptyObject fileX2 ∧
    (abWriter.WriteHeaderWorld fileX fileY).1.srcStream = some "foo\n" ∧
    (abWriter.WriteHeaderWorld fileX fileY).1.dstStream = some "bar\n" :=
  ⟨⟨rfl, rfl, rfl, by decide, by decide⟩, by decide,
    (WriteHeader_ignores_content abWriter fileX fileX2
      ⟨rfl, rfl, rfl, by decide, by decide⟩).1 fileY,
    (WriteHeader_ignores_content abWriter fileX fileX2
      ⟨rfl, rfl, rfl, by decide, by decide⟩).2.1 EmptyObject,
    ((WriteHeader_ignores_content abWriter fileX fileX2
      ⟨rfl, rfl, rfl, by decide, by decide⟩).2.2.2.2.2.1 fileX fileY).1,
    ((WriteHeader_ignores_content abWriter fileX fileX2
      ⟨rfl, rfl, rfl, by decide, by decide⟩).2.2.2.2.2.1 fileX fileY).2⟩

/-! ## The index line of a modification -/

theorem textLines_line (l rest : List Char) (h : '\n' ∉ l) :
    textLines (l ++ '\n' :: rest) = l :: textLines rest := by
  induction l with
  | nil => simp [textLines]
  | cons c cs ih =>
    simp only [List.mem_cons, not_or] at h
    have hc : ¬ c = '\n' := fun e => h.1 e.symm
    have e := ih h.2
    simp only [List.cons_append, textLines, hc, if_false]
    rw [show cs.append ('\n' :: rest) = cs ++ '\n' :: rest from rfl, e]

theorem textLines_render (ls : List (List Char)) (h : ∀ l ∈ ls, '\n' ∉ l) :
    textLines (ls.flatMap (fun l => l ++ ['\n'])) = ls := by
  induction ls with
  | nil => rfl
  | cons l t ih =>
    simp only [List.flatMap_cons, List.append_assoc, List.singleton_append]
    rw [textLines_line l _ (h l (List.mem_cons_self _ _)),
      ih (fun x hx => h x (List.mem_cons_of_mem _ hx))]

theorem octalCore_no_newline (fuel : Nat) :
    ∀ (n : Nat) (ds : List Char), '\n' ∉ ds → '\n' ∉ Nat.toDigitsCore 8 fuel n ds := by
  induction fuel with
  | zero => intro n ds h; simpa [Nat.toDigitsCore] using h
  | succ k ih =>
    intro n ds h
    have hd : '\n' ∉ Nat.digitChar (n % 8) :: ds := by
      simp only [List.mem_cons, not_or]
      have hlt : n % 8 < 10 := Nat.lt_of_lt_of_le (Nat.mod_lt _ (by decide)) (by decide)
      exact ⟨fun e => digitChar_ne_newline _ hlt e.symm, h⟩
    simp only [Nat.toDigitsCore]
    split
    · exact hd
    · exact ih _ _ hd

theorem fmtOctal_no_newline (v : Int) : '\n' ∉ (fmtOctal v).toList := by
  have hd : '\n' ∉ Nat.toDigits 8 v.natAbs := by
    unfold Nat.toDigits
    exact octalCore_no_newline _ _ _ (by simp)
  unfold fmtOctal
  split <;> simp [String.toList, hd]

theorem fmtHex_no_newline (id : ObjectID) : '\n' ∉ (fmtHex id).toList := by
  intro h
  have := fmtHex_lower id _ h
  revert this
  decide

theorem mk_toList (s : String) : String.mk s.toList = s := by
  cases s; rfl

theorem header_modify (w : Diff.Writer) (src dst : Object)
    (hs : src ≠ EmptyObject) (hd : dst ≠ EmptyObject) :
    (w.header src dst).toList =
      [("diff --git " ++ (w.paths src dst).1 ++ " " ++ (w.paths src dst).2).toList,
        ("index " ++ fmtHex src.ID ++ ".." ++ fmtHex dst.ID ++ " " ++
          fmtOctal dst.Mode).toList,
        ("--- " ++ (w.paths src dst).1).toList,
        ("+++ " ++ (w.paths src dst).2).toList].flatMap (fun l => l ++ ['\n']) := by
  simp [Writer.header, writeHeader_modify w src dst hs hd, Writer.paths, hs, hd,
    String.join, String.toList, List.append_assoc]

theorem paths_modify (w : Diff.Writer) (src dst : Object)
    (hs : src ≠ EmptyObject) (hd : dst ≠ EmptyObject) :
    (w.paths src dst).1 =
      (if filepath.Join w.SrcPrefix src.Path = "" then filepath.Join w.DstPrefix dst.Path
        else filepath.Join w.SrcPrefix src.Path) ∧
    (w.paths src dst).2 = filepath.Join w.DstPrefix dst.Path := by
  simp [Writer.paths, hs, hd]

theorem headerLines_modify (w : Diff.Writer) (src dst : Object)
    (hs : src ≠ EmptyObject) (hd : dst ≠ EmptyObject)
    (hS : '\n' ∉ (filepath.Join w.SrcPrefix src.Path).toList)
    (hD : '\n' ∉ (filepath.Join w.DstPrefix dst.Path).toList) :
    w.headerLines src dst =
      ["diff --git " ++ (w.paths src dst).1 ++ " " ++ (w.paths src dst).2,
        "index " ++ fmtHex src.ID ++ ".." ++ fmtHex dst.ID ++ " " ++ fmtOctal dst.Mode,
        "--- " ++ (w.paths src dst).1,
        "+++ " ++ (w.paths src dst).2] := by
  have hp := paths_modify w src dst hs hd
  have h2 : '\n' ∉ (w.paths src dst).2.toList := by rw [hp.2]; exact hD
  have h1 : '\n' ∉ (w.paths src dst).1.toList := by
    rw [hp.1]
    split
    · exact hD
    · exact hS
  have ho := fmtOctal_no_newline dst.Mode
  have hxs := fmtHex_no_newline src.ID
  have hxd := fmtHex_no_newline dst.ID
  unfold Writer.headerLines
  rw [header_modify w src dst hs hd, textLines_render]
  · simp only [List.map_cons, List.map_nil, mk_toList]
  · intro l hl
    simp only [List.mem_cons, List.mem_singleton, List.not_mem_nil, or_false] at hl
    simp only [String.toList] at h1 h2 ho hxs hxd
    rcases hl with rfl | rfl | rfl | rfl <;>
      simp [String.toList, h1, h2, ho, hxs, hxd]

/-- C10 fails as stated.  In the header for modifying `fileX` into `fileY` the
third line is `--- a/x`, and the index line is the second line.  And for a
present `src` whose path holds newlines (`markerPath`), the path is printed as
it is: the header has eight lines, its second line is `new file mode 100644`,
so it contains a `new file mode` line and its second line is not the index
line either. -/
theorem WriteHeader_index_line_counterexample :
    fileX ≠ EmptyObject ∧ fileY ≠ EmptyObject ∧
    ((abWriter.WriteHeader fileX fileY).1.Writer.writes.drop
      abWriter.Writer.writes.length)[2]? = some "--- a/x\n" ∧
    ((abWriter.WriteHeader fileX fileY).1.Writer.writes.drop
      abWriter.Writer.writes.length)[2]? ≠
      some ("index " ++ fmtHex fileX.ID ++ ".." ++ fmtHex fileY.ID ++ " " ++
        fmtOctal fileY.Mode ++ "\n") ∧
    ((abWriter.WriteHeader fileX fileY).1.Writer.writes.drop
      abWriter.Writer.writes.length)[1]? =
      some ("index " ++ fmtHex fileX.ID ++ ".." ++ fmtHex fileY.ID ++ " " ++
        fmtOctal fileY.Mode ++ "\n") ∧
    abWriter.headerLines fileX fileY =
      ["diff --git a/x b/y",
        "index 0102ff00000000000000000000000000000000ab.." ++
          "0000000000000000000000000000000000000000 100755",
        "--- a/x",
        "+++ b/y"] ∧
    (abWriter.headerLines fileX fileY)[2]? ≠
      some ("index " ++ fmtHex fileX.ID ++ ".." ++ fmtHex fileY.ID ++ " " ++
        fmtOctal fileY.Mode) ∧
    markerPath ≠ EmptyObject ∧
    abWriter.headerLines markerPath fileY =
      ["diff --git a/x",
        "new file mode 100644",
        "y b/y",
        "index 0102ff00000000000000000000000000000000ab.." ++
          "0000000000000000000000000000000000000000 100755",
        "--- a/x",
        "new file mode 100644",
        "y",
        "+++ b/y"] ∧
    "new file mode 100644" ∈ abWriter.headerLines markerPath fileY ∧
    (abWriter.headerLines markerPath fileY)[1]? ≠
      some ("index " ++ fmtHex markerPath.ID ++ ".." ++ fmtHex fileY.ID ++ " " ++
        fmtOctal fileY.Mode) := by
  decide

/-- C10, amended: for every `src` and `dst` that both differ from `EmptyObject`
and for which neither `filepath.Join(SrcPrefix, src.Path)` nor
`filepath.Join(DstPrefix, dst.Path)` contains a newline, the header text
written by `WriteHeader` has exactly the four lines `diff --git S D`,
`index <hex src.ID>..<hex dst.ID> <dst.Mode in octal>`, `--- S`, `+++ D`; its
second line is that index line, and it contains neither a `new file mode` line
nor a `deleted file mode` line: no line of the text starts with either
marker.  Lines are those of the text, split at its newline bytes. -/
theorem WriteHeader_index_line (w : Diff.Writer) (src dst : Object)
    (hs : src ≠ EmptyObject) (hd : dst ≠ EmptyObject)
    (hS : '\n' ∉ (filepath.Join w.SrcPrefix src.Path).toList)
    (hD : '\n' ∉ (filepath.Join w.DstPrefix dst.Path).toList) :
    w.headerLines src dst =
      ["diff --git " ++
          (if filepath.Join w.SrcPrefix src.Path = "" then filepath.Join w.DstPrefix dst.Path
            else filepath.Join w.SrcPrefix src.Path) ++ " " ++
          filepath.Join w.DstPrefix dst.Path,
        "index " ++ fmtHex src.ID ++ ".." ++ fmtHex dst.ID ++ " " ++ fmtOctal dst.Mode,
        "--- " ++
          (if filepath.Join w.SrcPrefix src.Path = "" then filepath.Join w.DstPrefix dst.Path
            else filepath.Join w.SrcPrefix src.Path),
        "+++ " ++ filepath.Join w.DstPrefix dst.Path] ∧
    (w.headerLines src dst)[1]? =
      some ("index " ++ fmtHex src.ID ++ ".." ++ fmtHex dst.ID ++ " " ++ fmtOctal dst.Mode) ∧
    (∀ l ∈ w.headerLines src dst,
      ¬ ("new file mode".toList <+: l.toList) ∧
      ¬ ("deleted file mode".toList <+: l.toList)) ∧
    (∀ l ∈ w.headerLines src dst, '\n' ∉ l.toList) ∧
    (w.header src dst).toList =
      (w.headerLines src dst).flatMap (fun l => l.toList ++ ['\n']) := by
  have hl := headerLines_modify w src dst hs hd hS hD
  have hp := paths_modify w src dst hs hd
  have hh := header_modify w src dst hs hd
  have h2 : '\n' ∉ (w.paths src dst).2.toList := by rw [hp.2]; exact hD
  have h1 : '\n' ∉ (w.paths src dst).1.toList := by
    rw [hp.1]
    split
    · exact hD
    · exact hS
  have ho := fmtOctal_no_newline dst.Mode
  have hxs := fmtHex_no_newline src.ID
  have hxd := fmtHex_no_newline dst.ID
  refine ⟨?_, ?_, ?_, ?_, ?_⟩
  · rw [hl, hp.1, hp.2]
  · rw [hl]
    rfl
  · intro l hmem
    rw [hl] at hmem
    simp only [List.mem_cons, List.mem_singleton, List.not_mem_nil, or_false] at hmem
    rcases hmem with rfl | rfl | rfl | rfl <;>
      simp [String.toList, List.cons_prefix_cons]
  · intro l hmem
    rw [hl] at hmem
    simp only [List.mem_cons, List.mem_singleton, List.not_mem_nil, or_false] at hmem
    simp only [String.toList] at h1 h2 ho hxs hxd
    rcases hmem with rfl | rfl | rfl | rfl <;>
      simp [String.toList, h1, h2, ho, hxs, hxd]
  · rw [hl, hh]
    simp

/-- The modification header from `fileX` to `fileY`, whose paths hold no
newline, has the index line as its second line. -/
theorem WriteHeader_index_line_witness :
    fileX ≠ EmptyObject ∧ fileY ≠ EmptyObject ∧
    '\n' ∉ (filepath.Join abWriter.SrcPrefix fileX.Path).toList ∧
    '\n' ∉ (filepath.Join abWriter.DstPrefix fileY.Path).toList ∧
    (abWriter.headerLines fileX fileY)[1]? =
      some ("index 0102ff00000000000000000000000000000000ab.." ++
        "0000000000000000000000000000000000000000 100755") :=
  ⟨by decide, by decide, by decide, by decide,
    (WriteHeader_index_line abWriter fileX fileY (by decide) (by decide) (by decide)
      (by decide)).2.1.trans (by decide)⟩

end Diff
